import Mathlib

/-! OpenAnimationReplacer: a shallow embedding of the registry singleton

The development embeds the class `OpenAnimationReplacer`
(`src/OpenAnimationReplacer.h`, `src/OpenAnimationReplacer.cpp`) together with
the parts of `DetectedProblems.h` and `Parsing.h` its operations touch.

Conventions of the embedding

* A C++ pointer is a natural number, the null pointer is `0`.
* `std::unordered_map` and `std::map` are lists of key/value pairs in insertion
  order; `emplace` and `try_emplace` insert only when the key is absent,
  `erase` removes the key. No modelled operation depends on the iteration
  order of a container.
* The singleton is a value of the structure `OpenAnimationReplacer`; a member
  function takes the state as its first argument and returns the new state
  next to its result.
* `std::string_view` arguments are C strings (text without an embedded NUL), so
  the `std::string` built from `a_name.data()` is the same text.
* Every lock except `_jobsLock` is taken and released inside one member
  function without calling back into code that takes it again, so only
  `_jobsLock` is part of the state: a call that would block for ever returns
  `none`, and so does a call whose behaviour the language leaves undefined.
-/

namespace OAR

/-- Machine address; `nullptr` is address zero. -/
abbrev Ptr := Nat

/-- The null pointer. -/
def nullptr : Ptr := 0

/-! ## Keyed containers -/

namespace Map

/-- Lookup of a key, the model of `find` on a map (first match). -/
def find {K V : Type} [DecidableEq K] : List (K × V) → K → Option V
  | [], _ => none
  | (k', v) :: rest, k => if k' = k then some v else find rest k

/-- Membership of a key, the model of `contains`. -/
def contains {K V : Type} [DecidableEq K] (m : List (K × V)) (k : K) : Bool :=
  (find m k).isSome

/-- Insertion that keeps an existing entry, the model of `emplace` and
`try_emplace`: the flag tells whether the insertion took place. -/
def emplace {K V : Type} [DecidableEq K] (m : List (K × V)) (k : K) (v : V) :
    List (K × V) × Bool :=
  if contains m k then (m, false) else (m ++ [(k, v)], true)

/-- Removal of a key, the model of `erase`. -/
def erase {K V : Type} [DecidableEq K] : List (K × V) → K → List (K × V)
  | [], _ => []
  | (k', v) :: rest, k => if k' = k then erase rest k else (k', v) :: erase rest k

/-- Assignment through an iterator (`it->second = v`): replaces the value of
an existing key. -/
def assign {K V : Type} [DecidableEq K] : List (K × V) → K → V → List (K × V)
  | [], _, _ => []
  | (k', v') :: rest, k, v =>
    if k' = k then (k', v) :: rest else (k', v') :: assign rest k v

end Map

/-! ## Active clips -/

/-- Modelled from the spec: `ActiveClip.h` is not under `src/`. An active clip
is the live state of one playing clip handle; of its members the table
operations read only the transition-in-progress flag. -/
structure ActiveClip where
  clipGenerator : Ptr
  character : Ptr
  bTransitioning : Bool
deriving DecidableEq, Repr

/-- Modelled from the spec: `ActiveClip::IsTransitioning` (`ActiveClip.h`, not
under `src/`) reports the transition-in-progress flag. -/
def ActiveClip.IsTransitioning (c : ActiveClip) : Bool := c.bTransitioning

/-- The part of `RE::hkbContext` the code reads. -/
structure hkbContext where
  character : Ptr
deriving DecidableEq, Repr

/-! ## Replacement data -/

/-- Modelled from the spec: `AnimationReplacements` is declared in
`ReplacerMods.h`, which is not under `src/`. Of the candidates of one original
animation the code under `src/` reads two policy flags, through
`IsOriginalInterruptible` and `ShouldOriginalKeepRandomResultsOnLoop`. -/
structure AnimationReplacements where
  bOriginalInterruptible : Bool
  bOriginalKeepRandomResultsOnLoop : Bool
deriving DecidableEq, Repr

/-- Modelled from the spec: `AnimationReplacements::IsOriginalInterruptible`. -/
def AnimationReplacements.IsOriginalInterruptible (a : AnimationReplacements) : Bool :=
  a.bOriginalInterruptible

/-- Modelled from the spec:
`AnimationReplacements::ShouldOriginalKeepRandomResultsOnLoop`. -/
def AnimationReplacements.ShouldOriginalKeepRandomResultsOnLoop
    (a : AnimationReplacements) : Bool :=
  a.bOriginalKeepRandomResultsOnLoop

/-- Modelled from the spec: `ReplacerProjectData` is declared in
`ReplacerMods.h`, which is not under `src/`. The members used by the code under
`src/` are the constructor arguments, `synchronizedClipIDOffset` (a
`uint16_t`, taken to start at `0`) and the map from an original animation index
to its `AnimationReplacements`, read through `GetAnimationReplacements`. -/
structure ReplacerProjectData where
  stringData : Ptr
  projectDBData : Ptr
  synchronizedClipIDOffset : Nat
  animationReplacements : List (Nat × AnimationReplacements)
deriving DecidableEq, Repr

/-- Modelled from the spec: the constructor
`ReplacerProjectData(a_stringData, a_projectDBData)` (`ReplacerMods.h`, not
under `src/`). -/
def ReplacerProjectData.ctor (a_stringData a_projectDBData : Ptr) : ReplacerProjectData :=
  { stringData := a_stringData, projectDBData := a_projectDBData, synchronizedClipIDOffset := 0,
    animationReplacements := [] }

/-- Modelled from the spec: `ReplacerProjectData::GetAnimationReplacements`
(`ReplacerMods.h`, not under `src/`) returns the replacements of an original
index, `none` being the null pointer. -/
def ReplacerProjectData.GetAnimationReplacements (p : ReplacerProjectData) (a_index : Nat) :
    Option AnimationReplacements :=
  Map.find p.animationReplacements a_index

/-- Modelled from the spec: `SubMod` is declared in `ReplacerMods.h`, which is
not under `src/`. A sub mod keeps what `LoadParseResult` copies from its parse
result, the animations handed to `AddReplacementAnimations` (project and file)
and the projects handed to `AddReplacerProject`. -/
structure SubMod where
  path : String
  name : String
  description : String
  priority : Int
  bDisabled : Bool
  replacementAnimations : List (Ptr × String)
  replacerProjects : List Ptr
deriving DecidableEq, Repr

/-- Modelled from the spec: `ReplacerMod` is declared in `ReplacerMods.h`,
which is not under `src/`. A replacer mod owns its sub mods, which are found
by path. -/
structure ReplacerMod where
  path : String
  name : String
  author : String
  description : String
  bLegacy : Bool
  subMods : List SubMod
deriving DecidableEq, Repr

/-- The fields of `Parsing::SubModParseResult` that the merge reads;
`animationsToAdd` is the member `AddSubModParseResult` passes on. -/
structure SubModParseResult where
  bSuccess : Bool
  path : String
  name : String
  description : String
  priority : Int
  bDisabled : Bool
  animationsToAdd : List String
deriving DecidableEq, Repr

/-- The record `Parsing::ModParseResult`. -/
structure ModParseResult where
  bSuccess : Bool
  subModParseResults : List SubModParseResult
  path : String
  name : String
  author : String
  description : String
deriving DecidableEq, Repr

/-! ## Conditions and their factories -/

/-- A condition object as a factory builds it: a built-in class with its
constructor arguments, or the object returned by a plug-in factory function
(identified by the address of that function). -/
inductive ICondition where
  | builtin (cls : String) (args : List String)
  | custom (factory : Ptr)
deriving DecidableEq, Repr

/-- A value of the visible or hidden factory table
(`std::function<std::unique_ptr<ICondition>()>`): a lambda that constructs a
built-in class, or the lambda of `InitFactories` that calls a plug-in factory.
That lambda refers to the entry of `_customConditionFactories`, whose value is
never reassigned, so it is identified with the function stored there. -/
inductive Factory where
  | make (cls : String) (args : List String)
  | wrap (factory : Ptr)
deriving DecidableEq, Repr

/-- Calling a factory. -/
def Factory.call : Factory → ICondition
  | .make cls args => .builtin cls args
  | .wrap f => .custom f

/-- The result codes `OAR_API::Conditions::APIResult`. -/
inductive APIResult where
  | OK
  | Invalid
  | AlreadyRegistered
  | Failed
deriving DecidableEq, Repr

/-! ## Jobs and the job-queue lock -/

/-- Modelled from the spec: `Jobs.h` is not under `src/`. A job is an opaque
unit of work; `Run` is observed through the log of jobs that ran (by the label
`id`) and through the jobs it hands to `QueueJob` while it runs. -/
inductive Job where
  | mk : Nat → List Job → Job

/-- Label of a job. -/
def Job.id : Job → Nat
  | .mk i _ => i

/-- Jobs that a job enqueues when it runs. -/
def Job.queued : Job → List Job
  | .mk _ q => q

/-- The lock `_jobsLock`. Its type `SharedLock` is declared outside `src/`, so
whether the holder may take it again is a field of the lock: `held` counts the
acquisitions of the running thread. -/
structure SharedLock where
  bRecursive : Bool
  held : Nat
deriving DecidableEq, Repr

/-- Acquisition by `WriteLocker`: `none` when the thread already holds a lock
that cannot be taken twice (the call never returns). -/
def SharedLock.lock (l : SharedLock) : Option SharedLock :=
  if l.held = 0 ∨ l.bRecursive = true then some { l with held := l.held + 1 } else none

/-- Release at the end of the scope of a `WriteLocker`. -/
def SharedLock.unlock (l : SharedLock) : SharedLock :=
  { l with held := l.held - 1 }

/-! ## The singleton -/

/-- The data members of `OpenAnimationReplacer` that the embedded operations
use. `modHeap` is the storage of the `ReplacerMod` objects owned through
`std::unique_ptr` (address and object), `ranJobs` is the log of the jobs that
ran, and `bIsPreLoading` is the static flag of the class. -/
structure OpenAnimationReplacer where
  _replacerProjectDatas : List (Ptr × ReplacerProjectData)
  modHeap : List (Ptr × ReplacerMod)
  _replacerMods : List (String × Ptr)
  _legacyReplacerMod : Ptr
  _replacerModNameMap : List (String × Ptr)
  _activeClips : List (Ptr × ActiveClip)
  _bFactoriesInitialized : Bool
  _conditionFactories : List (String × Factory)
  _hiddenConditionFactories : List (String × Factory)
  _customConditionPlugins : List (String × Nat)
  _customConditionFactories : List (String × Ptr)
  _jobsLock : SharedLock
  _jobs : List Job
  ranJobs : List Nat
  bIsPreLoading : Bool

/-- The default-constructed singleton; the lock kind is given. -/
def OpenAnimationReplacer.init (bRecursiveLock : Bool) : OpenAnimationReplacer :=
  { _replacerProjectDatas := [],
    modHeap := [],
    _replacerMods := [],
    _legacyReplacerMod := nullptr,
    _replacerModNameMap := [],
    _activeClips := [],
    _bFactoriesInitialized := false,
    _conditionFactories := [],
    _hiddenConditionFactories := [],
    _customConditionPlugins := [],
    _customConditionFactories := [],
    _jobsLock := { bRecursive := bRecursiveLock, held := 0 },
    _jobs := [],
    ranJobs := [],
    bIsPreLoading := false }

/-! ## Active clip table -/

/-- The member `GetActiveClip`. -/
def GetActiveClip (s : OpenAnimationReplacer) (a_clipGenerator : Ptr) : Option ActiveClip :=
  Map.find s._activeClips a_clipGenerator

/-- The member `AddOrGetActiveClip`. The constructor of `ActiveClip` is outside
`src/` and is the parameter `newClip`. Returns the clip, the flag `a_bOutAdded`
and the new state. `try_emplace` inserts exactly when the key is absent (the
branch `none`), and the inserted null is replaced by the new clip before the
lock is released. -/
def AddOrGetActiveClip (newClip : Ptr → Ptr → ActiveClip) (s : OpenAnimationReplacer)
    (a_clipGenerator : Ptr) (a_context : hkbContext) :
    ActiveClip × Bool × OpenAnimationReplacer :=
  match Map.find s._activeClips a_clipGenerator with
  | some existing => (existing, false, s)
  | none =>
    let clip := newClip a_clipGenerator a_context.character
    (clip, true, { s with _activeClips := s._activeClips ++ [(a_clipGenerator, clip)] })

/-- The member `RemoveActiveClip`. -/
def RemoveActiveClip (s : OpenAnimationReplacer) (a_clipGenerator : Ptr) :
    OpenAnimationReplacer :=
  match Map.find s._activeClips a_clipGenerator with
  | some activeClip =>
    if !activeClip.IsTransitioning then
      { s with _activeClips := Map.erase s._activeClips a_clipGenerator }
    else s
  | none => s

/-! ## Project registry -/

/-- The member `GetReplacerProjectData`. -/
def GetReplacerProjectData (s : OpenAnimationReplacer) (a_stringData : Ptr) :
    Option ReplacerProjectData :=
  Map.find s._replacerProjectDatas a_stringData

/-- The member `HasReplacementData`. -/
def HasReplacementData (s : OpenAnimationReplacer) (a_stringData : Ptr) : Bool :=
  Map.contains s._replacerProjectDatas a_stringData

/-- The member `GetOrAddReplacerProjectData`. -/
def GetOrAddReplacerProjectData (s : OpenAnimationReplacer) (a_stringData a_projectDBData : Ptr) :
    ReplacerProjectData × OpenAnimationReplacer :=
  match GetReplacerProjectData s a_stringData with
  | some replacerProjectData => (replacerProjectData, s)
  | none =>
    let fresh := ReplacerProjectData.ctor a_stringData a_projectDBData
    (fresh, { s with _replacerProjectDatas :=
      (Map.emplace s._replacerProjectDatas a_stringData fresh).1 })

/-- The member `SetSynchronizedClipsIDOffset`. -/
def SetSynchronizedClipsIDOffset (s : OpenAnimationReplacer) (a_stringData : Ptr)
    (a_offset : Nat) : OpenAnimationReplacer :=
  match Map.find s._replacerProjectDatas a_stringData with
  | some replacerProjectData =>
    let updated := { replacerProjectData with synchronizedClipIDOffset := a_offset }
    { s with _replacerProjectDatas := Map.assign s._replacerProjectDatas a_stringData updated }
  | none => s

/-- The member `GetSynchronizedClipsIDOffset` on string data. -/
def GetSynchronizedClipsIDOffset (s : OpenAnimationReplacer) (a_stringData : Ptr) : Nat :=
  match Map.find s._replacerProjectDatas a_stringData with
  | some replacerProjectData => replacerProjectData.synchronizedClipIDOffset
  | none => 0

/-- The member `RemoveReplacementData`: `erase` returns the number of removed
entries, which the return type converts to `bool`. -/
def RemoveReplacementData (s : OpenAnimationReplacer) (a_stringData : Ptr) :
    Bool × OpenAnimationReplacer :=
  let remaining := Map.erase s._replacerProjectDatas a_stringData
  let erased := s._replacerProjectDatas.length - remaining.length
  (decide (erased ≠ 0), { s with _replacerProjectDatas := remaining })

/-- The value `static_cast<uint16_t>(-1)`, the index of no animation. -/
def invalidIndex : Nat := 65535

/-- The member `IsOriginalAnimationInterruptible`. The helper
`Utils::GetStringDataFromHkbCharacter` is outside `src/` and is the parameter
`GetStringDataFromHkbCharacter`, from the address of a character to the
address of its string data (null when it has none). -/
def IsOriginalAnimationInterruptible (GetStringDataFromHkbCharacter : Ptr → Ptr)
    (s : OpenAnimationReplacer) (a_character : Ptr) (a_originalIndex : Nat) : Bool :=
  if a_originalIndex ≠ invalidIndex ∧ a_character ≠ nullptr then
    let stringData := GetStringDataFromHkbCharacter a_character
    if stringData ≠ nullptr then
      match GetReplacerProjectData s stringData with
      | some replacerProjectData =>
        match replacerProjectData.GetAnimationReplacements a_originalIndex with
        | some animationReplacements => animationReplacements.IsOriginalInterruptible
        | none => false
      | none => false
    else false
  else false

/-- The member `ShouldOriginalAnimationKeepRandomResultsOnLoop`, with the same
parameter as `IsOriginalAnimationInterruptible`. -/
def ShouldOriginalAnimationKeepRandomResultsOnLoop (GetStringDataFromHkbCharacter : Ptr → Ptr)
    (s : OpenAnimationReplacer) (a_character : Ptr) (a_originalIndex : Nat) : Bool :=
  if a_originalIndex ≠ invalidIndex ∧ a_character ≠ nullptr then
    let stringData := GetStringDataFromHkbCharacter a_character
    if stringData ≠ nullptr then
      match GetReplacerProjectData s stringData with
      | some replacerProjectData =>
        match replacerProjectData.GetAnimationReplacements a_originalIndex with
        | some animationReplacements =>
          animationReplacements.ShouldOriginalKeepRandomResultsOnLoop
        | none => false
      | none => false
    else false
  else false

/-- The member `GetReplacementAnimation` on string data. The method
`ReplacerProjectData::EvaluateConditionsAndGetReplacementAnimation` is outside
`src/` and is the parameter `evaluate`; the result is a pointer to a
`ReplacementAnimation`. -/
def GetReplacementAnimation (evaluate : ReplacerProjectData → Ptr → Nat → Ptr → Ptr)
    (s : OpenAnimationReplacer) (a_stringData a_clipGenerator : Ptr) (a_originalIndex : Nat)
    (a_refr : Ptr) : Ptr :=
  if a_refr ≠ nullptr then
    match GetReplacerProjectData s a_stringData with
    | some projectData => evaluate projectData a_clipGenerator a_originalIndex a_refr
    | none => nullptr
  else nullptr

/-! ## Replacer mods -/

/-- Modelled from the spec: `ReplacerMod::GetSubMod` (`ReplacerMods.h`, not
under `src/`) returns the sub mod with the given path, if any. -/
def ReplacerMod.GetSubMod (m : ReplacerMod) (a_path : String) : Option SubMod :=
  m.subMods.find? (fun sm => decide (sm.path = a_path))

/-- Modelled from the spec: `ReplacerMod::AddSubMod` (`ReplacerMods.h`, not
under `src/`) takes ownership of a new sub mod. -/
def ReplacerMod.AddSubMod (m : ReplacerMod) (a_subMod : SubMod) : ReplacerMod :=
  { m with subMods := m.subMods ++ [a_subMod] }

/-- A write through the pointer returned by `GetSubMod`: the first sub mod
with the path is replaced by its image. -/
def modifySubMod (f : SubMod → SubMod) (a_path : String) : List SubMod → List SubMod
  | [] => []
  | sm :: rest =>
    if sm.path = a_path then f sm :: rest else sm :: modifySubMod f a_path rest

/-- Modelled from the spec: `SubMod::LoadParseResult` (`ReplacerMods.h`, not
under `src/`) on a default-constructed sub mod copies the parse result. -/
def SubMod.LoadParseResult (a_parseResult : SubModParseResult) : SubMod :=
  { path := a_parseResult.path,
    name := a_parseResult.name,
    description := a_parseResult.description,
    priority := a_parseResult.priority,
    bDisabled := a_parseResult.bDisabled,
    replacementAnimations := [],
    replacerProjects := [] }

/-- Modelled from the spec: `SubMod::AddReplacementAnimations`
(`ReplacerMods.h`, not under `src/`) records the animations the sub mod
contributes to a project. -/
def SubMod.AddReplacementAnimations (sm : SubMod) (a_stringData : Ptr)
    (a_animations : List String) : SubMod :=
  { sm with replacementAnimations :=
      sm.replacementAnimations ++ a_animations.map (fun a => (a_stringData, a)) }

/-- Modelled from the spec: `SubMod::AddReplacerProject` (`ReplacerMods.h`, not
under `src/`) records a project once; the project is named by its string
data, the key that owns it in `_replacerProjectDatas`. -/
def SubMod.AddReplacerProject (sm : SubMod) (a_project : Ptr) : SubMod :=
  if a_project ∈ sm.replacerProjects then sm
  else { sm with replacerProjects := sm.replacerProjects ++ [a_project] }

/-- Address given to the next `std::make_unique<ReplacerMod>`: non-null and
different from every address in use. -/
def freshModPtr (s : OpenAnimationReplacer) : Ptr :=
  (s.modHeap.map Prod.fst).foldl max 0 + 1

/-- The member `GetReplacerMod`. -/
def GetReplacerMod (s : OpenAnimationReplacer) (a_path : String) : Ptr :=
  match Map.find s._replacerMods a_path with
  | some p => p
  | none => nullptr

/-- The member `GetReplacerModByName`. -/
def GetReplacerModByName (s : OpenAnimationReplacer) (a_name : String) : Ptr :=
  match Map.find s._replacerModNameMap a_name with
  | some p => p
  | none => nullptr

/-- Name of the mod at an address (`ptr->GetName()`). -/
def modName (s : OpenAnimationReplacer) (p : Ptr) : String :=
  match Map.find s.modHeap p with
  | some m => m.name
  | none => ""

/-- The member `AddReplacerMod`; the argument is the address of the object the
caller created. -/
def AddReplacerMod (s : OpenAnimationReplacer) (a_path : String) (a_replacerMod : Ptr) :
    OpenAnimationReplacer :=
  { s with
    _replacerMods := (Map.emplace s._replacerMods a_path a_replacerMod).1,
    _replacerModNameMap :=
      (Map.emplace s._replacerModNameMap (modName s a_replacerMod) a_replacerMod).1 }

/-- The member `GetOrCreateLegacyReplacerMod`. -/
def GetOrCreateLegacyReplacerMod (s : OpenAnimationReplacer) : Ptr × OpenAnimationReplacer :=
  if s._legacyReplacerMod = nullptr then
    let p := freshModPtr s
    let legacy : ReplacerMod :=
      { path := "", name := "Legacy", author := "",
        description := "All mods structured in Dynamic Animation Replacer\x27s format.",
        bLegacy := true, subMods := [] }
    (p, { s with modHeap := s.modHeap ++ [(p, legacy)], _legacyReplacerMod := p })
  else (s._legacyReplacerMod, s)

/-- The member `AddSubModParseResult`. -/
def AddSubModParseResult (s : OpenAnimationReplacer) (a_replacerMod : Ptr)
    (a_parseResult : SubModParseResult) (a_stringData a_projectDBData : Ptr) :
    OpenAnimationReplacer :=
  match Map.find s.modHeap a_replacerMod with
  | none => s
  | some replacerMod =>
    let withSubMod :=
      match replacerMod.GetSubMod a_parseResult.path with
      | some _ => replacerMod
      | none => replacerMod.AddSubMod (SubMod.LoadParseResult a_parseResult)
    let (projectData, s1) := GetOrAddReplacerProjectData s a_stringData a_projectDBData
    let write := fun (sm : SubMod) =>
      (sm.AddReplacementAnimations a_stringData a_parseResult.animationsToAdd).AddReplacerProject
        projectData.stringData
    let updated :=
      { withSubMod with subMods := modifySubMod write a_parseResult.path withSubMod.subMods }
    { s1 with modHeap := Map.assign s1.modHeap a_replacerMod updated }

/-- The member `AddModParseResult`. -/
def AddModParseResult (s : OpenAnimationReplacer) (a_parseResult : ModParseResult)
    (a_stringData a_projectDBData : Ptr) : OpenAnimationReplacer :=
  let found := GetReplacerMod s a_parseResult.path
  let (replacerMod, s1) :=
    if found = nullptr then
      let p := freshModPtr s
      let newReplacerMod : ReplacerMod :=
        { path := a_parseResult.path, name := a_parseResult.name,
          author := a_parseResult.author, description := a_parseResult.description,
          bLegacy := false, subMods := [] }
      (p, AddReplacerMod { s with modHeap := s.modHeap ++ [(p, newReplacerMod)] }
        a_parseResult.path p)
    else (found, s)
  a_parseResult.subModParseResults.foldl
    (fun st subModParseResult =>
      AddSubModParseResult st replacerMod subModParseResult a_stringData a_projectDBData)
    s1

/-! ## Condition factories -/

/-- The visible factories that `InitFactories` registers, in source order:
name and the class its lambda constructs (no constructor argument). -/
def coreConditionFactories : List (String × Factory) :=
  [ ("IsForm", .make "IsFormCondition" []),
    ("OR", .make "ORCondition" []),
    ("AND", .make "ANDCondition" []),
    ("IsEquipped", .make "IsEquippedCondition" []),
    ("IsEquippedType", .make "IsEquippedTypeCondition" []),
    ("IsEquippedHasKeyword", .make "IsEquippedHasKeywordCondition" []),
    ("IsEquippedPower", .make "IsEquippedPowerCondition" []),
    ("IsWorn", .make "IsWornCondition" []),
    ("IsWornHasKeyword", .make "IsWornHasKeywordCondition" []),
    ("IsFemale", .make "IsFemaleCondition" []),
    ("IsChild", .make "IsChildCondition" []),
    ("IsPlayerTeammate", .make "IsPlayerTeammateCondition" []),
    ("IsInInterior", .make "IsInInteriorCondition" []),
    ("IsInFaction", .make "IsInFactionCondition" []),
    ("HasKeyword", .make "HasKeywordCondition" []),
    ("HasMagicEffect", .make "HasMagicEffectCondition" []),
    ("HasMagicEffectWithKeyword", .make "HasMagicEffectWithKeywordCondition" []),
    ("HasPerk", .make "HasPerkCondition" []),
    ("HasSpell", .make "HasSpellCondition" []),
    ("CompareValue", .make "CompareValue" []),
    ("Level", .make "LevelCondition" []),
    ("IsActorBase", .make "IsActorBaseCondition" []),
    ("IsRace", .make "IsRaceCondition" []),
    ("CurrentWeather", .make "CurrentWeatherCondition" []),
    ("CurrentGameTime", .make "CurrentGameTimeCondition" []),
    ("Random", .make "RandomCondition" []),
    ("IsUnique", .make "IsUniqueCondition" []),
    ("IsClass", .make "IsClassCondition" []),
    ("IsCombatStyle", .make "IsCombatStyleCondition" []),
    ("IsVoiceType", .make "IsVoiceTypeCondition" []),
    ("IsAttacking", .make "IsAttackingCondition" []),
    ("IsRunning", .make "IsRunningCondition" []),
    ("IsSneaking", .make "IsSneakingCondition" []),
    ("IsSprinting", .make "IsSprintingCondition" []),
    ("IsInAir", .make "IsInAirCondition" []),
    ("IsInCombat", .make "IsInCombatCondition" []),
    ("IsWeaponDrawn", .make "IsWeaponDrawnCondition" []),
    ("IsInLocation", .make "IsInLocationCondition" []),
    ("HasRefType", .make "HasRefTypeCondition" []),
    ("IsParentCell", .make "IsParentCellCondition" []),
    ("IsWorldSpace", .make "IsWorldSpaceCondition" []),
    ("FactionRank", .make "FactionRankCondition" []),
    ("IsMovementDirection", .make "IsMovementDirectionCondition" []),
    ("IsEquippedShout", .make "IsEquippedShoutCondition" []),
    ("HasGraphVariable", .make "HasGraphVariableCondition" []),
    ("SubmergeLevel", .make "SubmergeLevelCondition" []),
    ("IsReplacerEnabled", .make "IsReplacerEnabledCondition" []),
    ("IsCurrentPackage", .make "IsCurrentPackageCondition" []),
    ("IsWornInSlotHasKeyword", .make "IsWornInSlotHasKeywordCondition" []),
    ("Scale", .make "ScaleCondition" []),
    ("Height", .make "HeightCondition" []),
    ("Weight", .make "WeightCondition" []),
    ("MovementSpeed", .make "MovementSpeedCondition" []),
    ("CurrentMovementSpeed", .make "CurrentMovementSpeedCondition" []),
    ("WindSpeed", .make "WindSpeedCondition" []),
    ("WindAngleDifference", .make "WindAngleDifferenceCondition" []),
    ("CrimeGold", .make "CrimeGoldCondition" []) ]

/-- The hidden factories that `InitFactories` registers, in source order: the
legacy name, the class its lambda constructs and the constructor arguments. -/
def hiddenConditionFactories : List (String × Factory) :=
  [ ("IsEquippedRight", .make "IsEquippedCondition" ["false"]),
    ("IsEquippedLeft", .make "IsEquippedCondition" ["true"]),
    ("IsEquippedRightType", .make "IsEquippedTypeCondition" ["false"]),
    ("IsEquippedLeftType", .make "IsEquippedTypeCondition" ["true"]),
    ("IsEquippedRightHasKeyword", .make "IsEquippedHasKeywordCondition" ["false"]),
    ("IsEquippedLeftHasKeyword", .make "IsEquippedHasKeywordCondition" ["true"]),
    ("ValueEqualTo", .make "CompareValue" ["ComparisonOperator::kEqual"]),
    ("ValueLessThan", .make "CompareValue" ["ComparisonOperator::kLess"]),
    ("IsActorValueEqualTo",
      .make "CompareValue" ["ActorValueType::kActorValue", "ComparisonOperator::kEqual"]),
    ("IsActorValueLessThan",
      .make "CompareValue" ["ActorValueType::kActorValue", "ComparisonOperator::kLess"]),
    ("IsActorValueBaseEqualTo",
      .make "CompareValue" ["ActorValueType::kBase", "ComparisonOperator::kEqual"]),
    ("IsActorValueBaseLessThan",
      .make "CompareValue" ["ActorValueType::kBase", "ComparisonOperator::kLess"]),
    ("IsActorValueMaxEqualTo",
      .make "CompareValue" ["ActorValueType::kMax", "ComparisonOperator::kEqual"]),
    ("IsActorValueMaxLessThan",
      .make "CompareValue" ["ActorValueType::kMax", "ComparisonOperator::kLess"]),
    ("IsActorValuePercentageEqualTo",
      .make "CompareValue" ["ActorValueType::kPercentage", "ComparisonOperator::kEqual"]),
    ("IsActorValuePercentageLessThan",
      .make "CompareValue" ["ActorValueType::kPercentage", "ComparisonOperator::kLess"]),
    ("IsFactionRankEqualTo", .make "FactionRankCondition" ["ComparisonOperator::kEqual"]),
    ("IsFactionRankLessThan", .make "FactionRankCondition" ["ComparisonOperator::kLess"]),
    ("IsLevelLessThan", .make "LevelCondition" ["ComparisonOperator::kLess"]),
    ("CurrentGameTimeLessThan",
      .make "CurrentGameTimeCondition" ["ComparisonOperator::kLess"]) ]

/-- A run of `emplace` calls on one table, first entry first. -/
def emplaceAll {V : Type} (table : List (String × V)) (entries : List (String × V)) :
    List (String × V) :=
  entries.foldl (fun t e => (Map.emplace t e.1 e.2).1) table

/-- The member `AreFactoriesInitialized`. -/
def AreFactoriesInitialized (s : OpenAnimationReplacer) : Bool :=
  s._bFactoriesInitialized

/-- The member `InitFactories`. -/
def InitFactories (s : OpenAnimationReplacer) : OpenAnimationReplacer :=
  if s._bFactoriesInitialized then s
  else
    let visible := emplaceAll s._conditionFactories coreConditionFactories
    let hidden := emplaceAll s._hiddenConditionFactories hiddenConditionFactories
    let custom := s._customConditionFactories.map (fun e => (e.1, Factory.wrap e.2))
    { s with
      _conditionFactories := emplaceAll visible custom,
      _hiddenConditionFactories := hidden,
      _bFactoriesInitialized := true }

/-- The member `HasConditionFactory`. -/
def HasConditionFactory (s : OpenAnimationReplacer) (a_conditionName : String) : Bool :=
  Map.contains s._conditionFactories a_conditionName

/-- The member `CreateCondition`; `none` is the null `unique_ptr`. -/
def CreateCondition (s : OpenAnimationReplacer) (a_conditionName : String) :
    Option ICondition :=
  match Map.find s._conditionFactories a_conditionName with
  | some factory => some factory.call
  | none =>
    match Map.find s._hiddenConditionFactories a_conditionName with
    | some hiddenFactory => some hiddenFactory.call
    | none => none

/-- The member `AddCustomCondition`; a null `a_conditionFactory` is the
address `0`. -/
def AddCustomCondition (s : OpenAnimationReplacer) (a_pluginName : String)
    (a_pluginVersion : Nat) (a_conditionName : String) (a_conditionFactory : Ptr) :
    APIResult × OpenAnimationReplacer :=
  if a_pluginName = "" ∨ a_conditionName = "" ∨ a_conditionFactory = nullptr then
    (.Invalid, s)
  else if HasConditionFactory s a_conditionName then
    (.AlreadyRegistered, s)
  else if s._bFactoriesInitialized then
    (.Failed, s)
  else
    (.OK, { s with
      _customConditionPlugins :=
        (Map.emplace s._customConditionPlugins a_pluginName a_pluginVersion).1,
      _customConditionFactories :=
        (Map.emplace s._customConditionFactories a_conditionName a_conditionFactory).1 })

/-- The member `IsCustomCondition`. -/
def IsCustomCondition (s : OpenAnimationReplacer) (a_conditionName : String) : Bool :=
  Map.contains s._customConditionFactories a_conditionName

/-! ## Merging parse results -/

/-- The member `CreateReplacementAnimations` from the point where the
directories have been scanned: `modFutures` and `legacyFutures` are the values
the two vectors of futures deliver (scanning and parsing are collaborators
outside `src/`), `numAnimationNames` is `a_stringData->animationNames.size()`.
The steps after the offset is saved (sorting inside the project data,
diagnostics, logging, the hash cache) change nothing of the modelled state. -/
def CreateReplacementAnimations (s : OpenAnimationReplacer)
    (a_stringData a_projectDBData : Ptr) (numAnimationNames : Nat)
    (modFutures : List ModParseResult) (legacyFutures : List SubModParseResult) :
    OpenAnimationReplacer :=
  if a_stringData ≠ nullptr then
    if HasReplacementData s a_stringData then s
    else
      let s1 := if !AreFactoriesInitialized s then InitFactories s else s
      if modFutures.isEmpty && legacyFutures.isEmpty then s1
      else
        let s2 := modFutures.foldl
          (fun st modParseResult =>
            AddModParseResult st modParseResult a_stringData a_projectDBData)
          s1
        let s3 := legacyFutures.foldl
          (fun st subModParseResult =>
            if subModParseResult.bSuccess then
              let (replacerMod, st1) := GetOrCreateLegacyReplacerMod st
              AddSubModParseResult st1 replacerMod subModParseResult a_stringData
                a_projectDBData
            else st)
          s2
        SetSynchronizedClipsIDOffset s3 a_stringData (numAnimationNames % 65536)
  else s

/-! ## Job queue -/

/-- The member template `QueueJob`: `none` when the lock cannot be taken. The
lock is released when the function returns. -/
def QueueJob (s : OpenAnimationReplacer) (job : Job) : Option OpenAnimationReplacer :=
  match s._jobsLock.lock with
  | none => none
  | some _ => some { s with _jobs := s._jobs ++ [job] }

/-- Modelled from the spec: the virtual `GenericJob::Run` (`Jobs.h`, not under
`src/`). The job is logged, then it calls `QueueJob` for each job it
enqueues. -/
def Job.Run (job : Job) (s : OpenAnimationReplacer) : Option OpenAnimationReplacer :=
  job.queued.foldlM QueueJob { s with ranJobs := s.ranJobs ++ [job.id] }

/-- One round of the range-based loop of `RunJobs`. The loop keeps the
iterators `begin()` and `end()` that `_jobs` had when the loop started. The job
runs; a `push_back` on `_jobs` made while it runs invalidates the past-the-end
iterator the loop keeps (and every iterator when the vector reallocates), so
going on with the loop is undefined behaviour: the round has no defined result
when the job changed the size of `_jobs`. -/
def runJobInLoop (st : OpenAnimationReplacer) (job : Job) : Option OpenAnimationReplacer :=
  match job.Run st with
  | none => none
  | some st1 => if st1._jobs.length = st._jobs.length then some st1 else none

/-- The member `RunJobs`. The lock is held from the first statement to the
return; the loop visits the jobs of `_jobs` in order and the queue is cleared
after the loop. `none` stands for a call with no defined return: a job blocks
for ever on the lock (`QueueJob` under a held lock that cannot be taken twice),
or a job changed `_jobs` under the running loop (`runJobInLoop`). -/
def RunJobs (s : OpenAnimationReplacer) : Option OpenAnimationReplacer :=
  match s._jobsLock.lock with
  | none => none
  | some locked =>
    match s._jobs.foldlM runJobInLoop { s with _jobsLock := locked } with
    | none => none
    | some s1 => some { s1 with _jobs := [], _jobsLock := s1._jobsLock.unlock }

/-! ## Detected problems -/

/-- The data members of `DetectedProblems` (`src/DetectedProblems.h`):
`_subModsSharingPriority` maps a priority to the set of sub mods that have it,
a sub mod being named by its address. -/
structure DetectedProblems where
  _bIsOutdated : Bool
  _missingPlugins : List (String × Nat)
  _subModsSharingPriority : List (Int × List Ptr)
deriving DecidableEq, Repr

/-- The member `HasSubModsSharingPriority`. -/
def DetectedProblems.HasSubModsSharingPriority (d : DetectedProblems) : Bool :=
  !d._subModsSharingPriority.isEmpty

/-- The member `NumSubModsSharingPriority`: `size()` of the map. -/
def DetectedProblems.NumSubModsSharingPriority (d : DetectedProblems) : Nat :=
  d._subModsSharingPriority.length

/-- The member `NumMissingPlugins`: `size()` of the set. -/
def DetectedProblems.NumMissingPlugins (d : DetectedProblems) : Nat :=
  d._missingPlugins.length

/-- Number of sub mods recorded as sharing a priority, over all priorities. -/
def DetectedProblems.totalSubModsSharingPriority (d : DetectedProblems) : Nat :=
  (d._subModsSharingPriority.map (fun e => e.2.length)).sum

/-! ## Replacement lookup for a character -/

/-- The member `GetReplacementAnimation` on a character. The helper
`Utils::GetStringDataFromHkbCharacter` and the read of `animGraph->holder`
(the actor that owns the graph the character lies in) touch engine objects
outside `src/` and are the parameters `GetStringDataFromHkbCharacter` and
`holder`; `evaluate` is the parameter of the overload on string data. -/
def GetReplacementAnimation_hkbCharacter (GetStringDataFromHkbCharacter : Ptr → Ptr)
    (holder : Ptr → Ptr) (evaluate : ReplacerProjectData → Ptr → Nat → Ptr → Ptr)
    (s : OpenAnimationReplacer) (a_character a_clipGenerator : Ptr) (a_originalIndex : Nat) :
    Ptr :=
  if s.bIsPreLoading then nullptr
  else if a_originalIndex ≠ invalidIndex then
    let stringData := GetStringDataFromHkbCharacter a_character
    if stringData ≠ nullptr then
      let actor := holder a_character
      GetReplacementAnimation evaluate s stringData a_clipGenerator a_originalIndex actor
    else nullptr
  else nullptr

/-! ## Name index of the replacer mods -/

/-- The member `OnReplacerModNameChanged`. The node of the previous name is
extracted, its key becomes the current name of the mod and the node is
inserted again; the node keeps its mapped pointer, and an insertion under a
name that is already a key fails and drops the node. Without a node for the
previous name the node handle is empty and `handle.key()` is undefined: the
result is `none`. -/
def OnReplacerModNameChanged (s : OpenAnimationReplacer) (a_previousName : String)
    (a_replacerMod : Ptr) : Option OpenAnimationReplacer :=
  match Map.find s._replacerModNameMap a_previousName with
  | none => none
  | some mapped =>
    let extracted := Map.erase s._replacerModNameMap a_previousName
    some { s with _replacerModNameMap :=
      (Map.emplace extracted (modName s a_replacerMod) mapped).1 }

/-- The caller of `OnReplacerModNameChanged`: the name of the mod at the
address is changed, then the member is called with the previous name and the
mod, whose `GetName()` is by then the new name. The setter is declared in
`ReplacerMods.h`, outside `src/`; `none` for an address that holds no mod. -/
def renameReplacerMod (s : OpenAnimationReplacer) (a_replacerMod : Ptr) (a_name : String) :
    Option OpenAnimationReplacer :=
  match Map.find s.modHeap a_replacerMod with
  | none => none
  | some m =>
    let renamed : ReplacerMod := { m with name := a_name }
    OnReplacerModNameChanged
      { s with modHeap := Map.assign s.modHeap a_replacerMod renamed } m.name a_replacerMod

/-- The caller of `AddReplacerMod`, as in `AddModParseResult`: a new mod object
is created and handed over under a path. -/
def addNewReplacerMod (s : OpenAnimationReplacer) (a_path : String) (newMod : ReplacerMod) :
    OpenAnimationReplacer :=
  let p := freshModPtr s
  AddReplacerMod { s with modHeap := s.modHeap ++ [(p, newMod)] } a_path p

/-- An operation on the mod registry: a new mod is added under a path, or the
mod at an address is given a new name. -/
inductive RegistryOp where
  | add (a_path : String) (newMod : ReplacerMod)
  | rename (a_replacerMod : Ptr) (a_name : String)
deriving DecidableEq, Repr

/-- Effect of one registry operation. -/
def RegistryOp.run (s : OpenAnimationReplacer) : RegistryOp → Option OpenAnimationReplacer
  | .add a_path newMod => some (addNewReplacerMod s a_path newMod)
  | .rename a_replacerMod a_name => renameReplacerMod s a_replacerMod a_name

/-- Effect of a run of registry operations, first operation first. -/
def runRegistryOps (s : OpenAnimationReplacer) (ops : List RegistryOp) :
    Option OpenAnimationReplacer :=
  ops.foldlM RegistryOp.run s

/-- The paths of the added mods are pairwise distinct: the path of an added
mod is not registered yet. -/
def distinctPaths : OpenAnimationReplacer → List RegistryOp → Bool
  | _, [] => true
  | s, op :: rest =>
    (match op with
      | .add a_path _ => !Map.contains s._replacerMods a_path
      | .rename _ _ => true) &&
    (match op.run s with
      | some s1 => distinctPaths s1 rest
      | none => true)

/-- The names stay pairwise distinct as well, and only registered mods are
renamed: a mod is added with, or renamed to, a name that is not a key of the
name index, and a renamed mod is one that was added. -/
def distinctNames : OpenAnimationReplacer → List RegistryOp → Bool
  | _, [] => true
  | s, op :: rest =>
    (match op with
      | .add _ newMod => !Map.contains s._replacerModNameMap newMod.name
      | .rename a_replacerMod a_name =>
        decide (a_replacerMod ∈ s._replacerMods.map Prod.snd) &&
          !Map.contains s._replacerModNameMap a_name) &&
    (match op.run s with
      | some s1 => distinctNames s1 rest
      | none => true)

/-! ## Sample inputs -/

/-- A mod parse result that succeeded, with one sub mod. -/
def parsedModSample : ModParseResult :=
  { bSuccess := true,
    subModParseResults :=
      [{ bSuccess := true, path := "Mod\\Sub", name := "Sub", description := "", priority := 5,
         bDisabled := false, animationsToAdd := ["walk.hkx"] }],
    path := "Mod", name := "Mod", author := "", description := "" }

/-- The sample projects while behaviours are preloaded. -/
def preloadingSample : OpenAnimationReplacer :=
  { OpenAnimationReplacer.init false with
    _replacerProjectDatas := [(100, ReplacerProjectData.ctor 100 200)],
    bIsPreLoading := true }

/-- A mod object with the given path and name. -/
def sampleMod (a_path a_name : String) : ReplacerMod :=
  { path := a_path, name := a_name, author := "", description := "", bLegacy := false,
    subMods := [] }

/-- A sub mod parse result whose parse failed. -/
def failedSubModSample : SubModParseResult :=
  { bSuccess := false, path := "Mod\\Sub", name := "", description := "", priority := 0,
    bDisabled := false, animationsToAdd := [] }

/-- A mod parse result whose parse failed, holding one failed sub mod result. -/
def failedModSample : ModParseResult :=
  { bSuccess := false, subModParseResults := [failedSubModSample], path := "Mod", name := "",
    author := "", description := "" }

/-- A state with replacement data registered for the string data `100`. -/
def projectSample : OpenAnimationReplacer :=
  { OpenAnimationReplacer.init false with
    _replacerProjectDatas := [(100, ReplacerProjectData.ctor 100 200)] }

/-- Diagnostics in which the sub mods at the addresses `1001` and `1002` are
recorded as sharing the priority `5`. -/
def sharedPrioritySample : DetectedProblems :=
  { _bIsOutdated := false, _missingPlugins := [],
    _subModsSharingPriority := [(5, [1001, 1002])] }

/-- A run of `AddCustomCondition` calls, first call first; a call is the
plug-in name, the version, the condition name and the factory. -/
def addCustomConditions (s : OpenAnimationReplacer)
    (calls : List (String × Nat × String × Ptr)) : OpenAnimationReplacer :=
  calls.foldl (fun st c => (AddCustomCondition st c.1 c.2.1 c.2.2.1 c.2.2.2).2) s

/-- A state with two projects: the string data `100`, which has replacements
for the original index `42` (interruptible, random results not kept), and the
string data `300`, which has none. -/
def policySample : OpenAnimationReplacer :=
  { OpenAnimationReplacer.init false with
    _replacerProjectDatas :=
      [(100, { stringData := 100, projectDBData := 200, synchronizedClipIDOffset := 0,
               animationReplacements := [(42, ⟨true, false⟩)] }),
       (300, ReplacerProjectData.ctor 300 400)] }

/-- String data of the sample characters: the character `11` belongs to the
project `100`, every other character has no string data. -/
def sampleStringData (a_character : Ptr) : Ptr :=
  if a_character = 11 then 100 else nullptr

/-- A state with one transitioning clip for the handle `7`. -/
def busyClipSample : OpenAnimationReplacer :=
  { OpenAnimationReplacer.init false with _activeClips := [(7, ⟨7, 3, true⟩)] }

/-! ## Well-formed states -/

/-- Keys of a container are pairwise distinct. -/
def Map.NodupKeys {K V : Type} (m : List (K × V)) : Prop :=
  (m.map Prod.fst).Nodup

/-- The path index and the name index agree with the mods: paths are pairwise
distinct, every registered address holds a mod, and the current name of every
registered mod is a key of the name index that maps to the mod. -/
structure NameIndexConsistent (s : OpenAnimationReplacer) : Prop where
  pathsDistinct : Map.NodupKeys s._replacerMods
  inHeap : ∀ path p, (path, p) ∈ s._replacerMods → ∃ m, Map.find s.modHeap p = some m
  byName : ∀ path p, (path, p) ∈ s._replacerMods →
    Map.find s._replacerModNameMap (modName s p) = some p

end OAR

/-! # Theorems -/

namespace OAR

/-! ## Keyed containers -/

theorem Map.find_append {K V : Type} [DecidableEq K] (m : List (K × V)) (k k' : K) (v : V) :
    Map.find (m ++ [(k, v)]) k' =
      match Map.find m k' with
      | some x => some x
      | none => if k = k' then some v else none := by
  induction m with
  | nil => simp [Map.find]
  | cons p rest ih =>
    obtain ⟨a, b⟩ := p
    by_cases h : a = k'
    · simp [Map.find, h]
    · simp [Map.find, h, ih]

theorem Map.erase_of_find_none {K V : Type} [DecidableEq K] (m : List (K × V)) (k : K)
    (h : Map.find m k = none) : Map.erase m k = m := by
  induction m with
  | nil => rfl
  | cons p rest ih =>
    obtain ⟨a, b⟩ := p
    by_cases hk : a = k
    · simp [Map.find, hk] at h
    · simp only [Map.find, hk, if_false] at h
      simp [Map.erase, hk, ih h]

theorem Map.erase_append {K V : Type} [DecidableEq K] (m : List (K × V)) (k : K) (v : V) :
    Map.erase (m ++ [(k, v)]) k = Map.erase m k := by
  induction m with
  | nil => simp [Map.erase]
  | cons p rest ih =>
    obtain ⟨a, b⟩ := p
    by_cases hk : a = k
    · simpa [Map.erase, hk] using ih
    · simp [Map.erase, hk, ih]

theorem Map.erase_append_new {K V : Type} [DecidableEq K] (m : List (K × V)) (k : K) (v : V)
    (h : Map.find m k = none) : Map.erase (m ++ [(k, v)]) k = m := by
  rw [Map.erase_append, Map.erase_of_find_none m k h]

theorem Map.find_erase_self {K V : Type} [DecidableEq K] (m : List (K × V)) (k : K) :
    Map.find (Map.erase m k) k = none := by
  induction m with
  | nil => rfl
  | cons p rest ih =>
    obtain ⟨a, b⟩ := p
    by_cases hk : a = k
    · simpa [Map.erase, hk] using ih
    · simp [Map.erase, hk, Map.find, ih]

theorem Map.find_erase_ne {K V : Type} [DecidableEq K] (m : List (K × V)) (k k' : K)
    (hne : k' ≠ k) : Map.find (Map.erase m k) k' = Map.find m k' := by
  induction m with
  | nil => rfl
  | cons p rest ih =>
    obtain ⟨a, b⟩ := p
    by_cases hk : a = k
    · subst hk
      simp [Map.erase, Map.find, ih, Ne.symm hne]
    · by_cases hk' : a = k'
      · subst hk'
        simp [Map.erase, hk, Map.find]
      · simp [Map.erase, hk, Map.find, hk', ih]

/-! ## Active clip table -/

/-- C1. For every state and every clip handle that has no entry in the active
clip table, `AddOrGetActiveClip` reports that it added a clip and the table
grows by one entry; when the clip it returns is not transitioning, the
`RemoveActiveClip` that follows gives back the state before the creation, so
the table is the original one and has its original size. -/
theorem AddOrGetActiveClip_then_RemoveActiveClip (newClip : Ptr → Ptr → ActiveClip)
    (s : OpenAnimationReplacer) (a_clipGenerator : Ptr) (a_context : hkbContext)
    (hAbsent : GetActiveClip s a_clipGenerator = none)
    (hIdle : (AddOrGetActiveClip newClip s a_clipGenerator a_context).1.IsTransitioning
      = false) :
    (AddOrGetActiveClip newClip s a_clipGenerator a_context).2.1 = true ∧
    (AddOrGetActiveClip newClip s a_clipGenerator a_context).2.2._activeClips.length
      = s._activeClips.length + 1 ∧
    RemoveActiveClip (AddOrGetActiveClip newClip s a_clipGenerator a_context).2.2
      a_clipGenerator = s ∧
    (RemoveActiveClip (AddOrGetActiveClip newClip s a_clipGenerator a_context).2.2
      a_clipGenerator)._activeClips.length = s._activeClips.length := by
  have hfind : Map.find s._activeClips a_clipGenerator = none := hAbsent
  have hIdle' : (newClip a_clipGenerator a_context.character).bTransitioning = false := by
    simpa [AddOrGetActiveClip, hfind, ActiveClip.IsTransitioning] using hIdle
  have hRemove : RemoveActiveClip (AddOrGetActiveClip newClip s a_clipGenerator a_context).2.2
      a_clipGenerator = s := by
    simp [AddOrGetActiveClip, hfind, RemoveActiveClip, Map.find_append,
      ActiveClip.IsTransitioning, hIdle', Map.erase_append_new]
  refine ⟨?_, ?_, hRemove, ?_⟩
  · simp [AddOrGetActiveClip, hfind]
  · simp [AddOrGetActiveClip, hfind]
  · rw [hRemove]

/-- Instance of C1: an empty table, clip handle `7`, a constructor that builds
an idle clip. -/
theorem AddOrGetActiveClip_then_RemoveActiveClip_witness :
    (AddOrGetActiveClip (fun g c => ⟨g, c, false⟩) (OpenAnimationReplacer.init false) 7
        ⟨3⟩).2.1 = true ∧
    (AddOrGetActiveClip (fun g c => ⟨g, c, false⟩) (OpenAnimationReplacer.init false) 7
        ⟨3⟩).2.2._activeClips.length = (OpenAnimationReplacer.init false)._activeClips.length + 1 ∧
    RemoveActiveClip (AddOrGetActiveClip (fun g c => ⟨g, c, false⟩)
        (OpenAnimationReplacer.init false) 7 ⟨3⟩).2.2 7 = OpenAnimationReplacer.init false ∧
    (RemoveActiveClip (AddOrGetActiveClip (fun g c => ⟨g, c, false⟩)
        (OpenAnimationReplacer.init false) 7 ⟨3⟩).2.2 7)._activeClips.length
      = (OpenAnimationReplacer.init false)._activeClips.length :=
  AddOrGetActiveClip_then_RemoveActiveClip (fun g c => ⟨g, c, false⟩)
    (OpenAnimationReplacer.init false) 7 ⟨3⟩ rfl rfl

/-- C2. For every state and every clip handle whose active clip reports
`IsTransitioning() = true`, `RemoveActiveClip` leaves the state, and so the
table, unchanged: `GetActiveClip` still returns the same clip. -/
theorem RemoveActiveClip_transitioning (s : OpenAnimationReplacer) (a_clipGenerator : Ptr)
    (activeClip : ActiveClip)
    (hEntry : GetActiveClip s a_clipGenerator = some activeClip)
    (hBusy : activeClip.IsTransitioning = true) :
    RemoveActiveClip s a_clipGenerator = s ∧
    (RemoveActiveClip s a_clipGenerator)._activeClips = s._activeClips ∧
    GetActiveClip (RemoveActiveClip s a_clipGenerator) a_clipGenerator = some activeClip := by
  have hfind : Map.find s._activeClips a_clipGenerator = some activeClip := hEntry
  have hSame : RemoveActiveClip s a_clipGenerator = s := by
    simp [RemoveActiveClip, hfind, hBusy]
  refine ⟨hSame, ?_, ?_⟩
  · rw [hSame]
  · rw [hSame]; exact hEntry

/-- Instance of C2: the clip of handle `7` is transitioning. -/
theorem RemoveActiveClip_transitioning_witness :
    RemoveActiveClip busyClipSample 7 = busyClipSample ∧
    (RemoveActiveClip busyClipSample 7)._activeClips = busyClipSample._activeClips ∧
    GetActiveClip (RemoveActiveClip busyClipSample 7) 7 = some ⟨7, 3, true⟩ :=
  RemoveActiveClip_transitioning busyClipSample 7 ⟨7, 3, true⟩ rfl rfl

/-! ## Job queue -/

theorem SharedLock.unlock_lock (l locked : SharedLock) (h : l.lock = some locked) :
    locked.unlock = l ∧ locked.bRecursive = l.bRecursive ∧ locked.held ≠ 0 := by
  unfold SharedLock.lock at h
  split at h
  · cases h
    cases l
    simp [SharedLock.unlock]
  · cases h

theorem QueueJob_of_lock (s : OpenAnimationReplacer) (job : Job)
    (h : s._jobsLock.held = 0 ∨ s._jobsLock.bRecursive = true) :
    QueueJob s job = some { s with _jobs := s._jobs ++ [job] } := by
  simp [QueueJob, SharedLock.lock, h]

theorem foldlM_QueueJob (jobs : List Job) (s : OpenAnimationReplacer)
    (h : s._jobsLock.held = 0 ∨ s._jobsLock.bRecursive = true) :
    jobs.foldlM QueueJob s = some { s with _jobs := s._jobs ++ jobs } := by
  induction jobs generalizing s with
  | nil => cases s; simp
  | cons job rest ih =>
    have step := ih { s with _jobs := s._jobs ++ [job] } h
    rw [List.foldlM_cons, QueueJob_of_lock s job h]
    simp only [Option.bind_eq_bind, Option.some_bind]
    rw [step]
    simp

theorem Job.Run_of_no_queue (job : Job) (s : OpenAnimationReplacer) (h : job.queued = []) :
    job.Run s = some { s with ranJobs := s.ranJobs ++ [job.id] } := by
  simp [Job.Run, h]

theorem runJobInLoop_of_no_queue (job : Job) (s : OpenAnimationReplacer)
    (h : job.queued = []) :
    runJobInLoop s job = some { s with ranJobs := s.ranJobs ++ [job.id] } := by
  unfold runJobInLoop
  rw [Job.Run_of_no_queue job s h]
  simp

theorem runAll_of_no_queue (jobs : List Job) (s : OpenAnimationReplacer)
    (h : ∀ job ∈ jobs, job.queued = []) :
    jobs.foldlM runJobInLoop s
      = some { s with ranJobs := s.ranJobs ++ jobs.map Job.id } := by
  induction jobs generalizing s with
  | nil => cases s; simp
  | cons job rest ih =>
    have step := ih { s with ranJobs := s.ranJobs ++ [job.id] }
      (fun j hj => h j (List.mem_cons_of_mem _ hj))
    rw [List.foldlM_cons, runJobInLoop_of_no_queue job s (h job (List.mem_cons_self _ _))]
    simp only [Option.bind_eq_bind, Option.some_bind]
    rw [step]
    simp

theorem RunJobs_of_no_queue (s : OpenAnimationReplacer) (hFree : s._jobsLock.held = 0)
    (h : ∀ job ∈ s._jobs, job.queued = []) :
    RunJobs s = some { s with ranJobs := s.ranJobs ++ s._jobs.map Job.id, _jobs := [] } := by
  have hlock : s._jobsLock.lock = some { s._jobsLock with held := s._jobsLock.held + 1 } := by
    simp [SharedLock.lock, hFree]
  have hrun := runAll_of_no_queue s._jobs
    { s with _jobsLock := { s._jobsLock with held := s._jobsLock.held + 1 } } h
  have hunlock := (SharedLock.unlock_lock _ _ hlock).1
  unfold RunJobs
  rw [hlock]
  simp only [hrun, hunlock]

/-- C3. Jobs that do not themselves enqueue, handed to `QueueJob` one after
the other while the lock is free, are appended to the queue in that order;
`RunJobs` then returns, has run every job of the queue exactly once in queue
order (the log grows by exactly the labels of the queue, in order), leaves the
queue empty and releases the lock. -/
theorem RunJobs_runs_every_job_once_in_order (s : OpenAnimationReplacer) (jobs : List Job)
    (hFree : s._jobsLock.held = 0)
    (hPending : ∀ job ∈ s._jobs, job.queued = [])
    (hJobs : ∀ job ∈ jobs, job.queued = []) :
    ∃ s1 s2, jobs.foldlM QueueJob s = some s1 ∧ s1._jobs = s._jobs ++ jobs ∧
      RunJobs s1 = some s2 ∧
      s2.ranJobs = s.ranJobs ++ (s._jobs ++ jobs).map Job.id ∧
      s2._jobs = [] ∧ s2._jobsLock = s._jobsLock := by
  have hall : ∀ job ∈ s._jobs ++ jobs, job.queued = [] := by
    intro job hmem
    rcases List.mem_append.mp hmem with h1 | h2
    · exact hPending job h1
    · exact hJobs job h2
  refine ⟨{ s with _jobs := s._jobs ++ jobs }, _, foldlM_QueueJob jobs s (Or.inl hFree), rfl,
    RunJobs_of_no_queue { s with _jobs := s._jobs ++ jobs } hFree hall, rfl, rfl, rfl⟩

/-- Instance of C3: two plain jobs are enqueued on an empty queue and run. -/
theorem RunJobs_runs_every_job_once_in_order_witness :
    ∃ s1 s2, [Job.mk 4 [], Job.mk 9 []].foldlM QueueJob (OpenAnimationReplacer.init false)
        = some s1 ∧
      s1._jobs = (OpenAnimationReplacer.init false)._jobs ++ [Job.mk 4 [], Job.mk 9 []] ∧
      RunJobs s1 = some s2 ∧
      s2.ranJobs = (OpenAnimationReplacer.init false).ranJobs ++
        ((OpenAnimationReplacer.init false)._jobs ++ [Job.mk 4 [], Job.mk 9 []]).map Job.id ∧
      s2._jobs = [] ∧ s2._jobsLock = (OpenAnimationReplacer.init false)._jobsLock :=
  RunJobs_runs_every_job_once_in_order (OpenAnimationReplacer.init false)
    [Job.mk 4 [], Job.mk 9 []] rfl
    (by intro job h; cases h)
    (by
      intro job h
      rcases List.mem_cons.mp h with rfl | h
      · rfl
      · rcases List.mem_cons.mp h with rfl | h
        · rfl
        · cases h)

set_option maxRecDepth 100000

/-- C5, as stated, fails. After `InitFactories` a call whose plug-in name is
empty returns `Invalid`, and a call for the registered name `IsForm` returns
`AlreadyRegistered`; neither returns `Failed`. -/
theorem AddCustomCondition_after_init_not_always_Failed :
    AreFactoriesInitialized (InitFactories (OpenAnimationReplacer.init false)) = true ∧
    (AddCustomCondition (InitFactories (OpenAnimationReplacer.init false))
      "" 1 "MyCondition" 11).1 = APIResult.Invalid ∧
    (AddCustomCondition (InitFactories (OpenAnimationReplacer.init false))
      "MyPlugin" 1 "IsForm" 11).1 = APIResult.AlreadyRegistered := by
  refine ⟨rfl, ?_, ?_⟩ <;> decide

/-- C5, amended. When the condition factories have been initialized,
`AddCustomCondition` never returns `OK` and leaves the state unchanged; it
returns `Failed` exactly when the plug-in name and the condition name are not
empty, the factory is not null and the visible factory table does not have the
condition name. -/
theorem AddCustomCondition_after_init (s : OpenAnimationReplacer) (a_pluginName : String)
    (a_pluginVersion : Nat) (a_conditionName : String) (a_conditionFactory : Ptr)
    (hInit : AreFactoriesInitialized s = true) :
    (AddCustomCondition s a_pluginName a_pluginVersion a_conditionName
      a_conditionFactory).1 ≠ APIResult.OK ∧
    (AddCustomCondition s a_pluginName a_pluginVersion a_conditionName
      a_conditionFactory).2 = s ∧
    ((AddCustomCondition s a_pluginName a_pluginVersion a_conditionName
        a_conditionFactory).1 = APIResult.Failed ↔
      (a_pluginName ≠ "" ∧ a_conditionName ≠ "" ∧ a_conditionFactory ≠ nullptr ∧
        HasConditionFactory s a_conditionName = false)) := by
  have hFlag : s._bFactoriesInitialized = true := hInit
  unfold AddCustomCondition
  by_cases hInvalid : a_pluginName = "" ∨ a_conditionName = "" ∨ a_conditionFactory = nullptr
  · rw [if_pos hInvalid]
    refine ⟨by simp, rfl, ?_⟩
    constructor
    · intro h; cases h
    · rintro ⟨h1, h2, h3, _⟩
      rcases hInvalid with h | h | h
      · exact absurd h h1
      · exact absurd h h2
      · exact absurd h h3
  · rw [if_neg hInvalid]
    have hValid : a_pluginName ≠ "" ∧ a_conditionName ≠ "" ∧ a_conditionFactory ≠ nullptr := by
      refine ⟨fun h => hInvalid (Or.inl h), fun h => hInvalid (Or.inr (Or.inl h)),
        fun h => hInvalid (Or.inr (Or.inr h))⟩
    cases hHas : HasConditionFactory s a_conditionName with
    | true =>
      simp
    | false =>
      simp [hFlag, hValid.1, hValid.2.1, hValid.2.2]

/-- Instance of amended C5: a valid registration of a new name after
`InitFactories`. -/
theorem AddCustomCondition_after_init_witness :
    (AddCustomCondition (InitFactories (OpenAnimationReplacer.init false))
      "MyPlugin" 1 "MyCondition" 11).1 ≠ APIResult.OK ∧
    (AddCustomCondition (InitFactories (OpenAnimationReplacer.init false))
      "MyPlugin" 1 "MyCondition" 11).2 = InitFactories (OpenAnimationReplacer.init false) ∧
    ((AddCustomCondition (InitFactories (OpenAnimationReplacer.init false))
        "MyPlugin" 1 "MyCondition" 11).1 = APIResult.Failed ↔
      ("MyPlugin" ≠ "" ∧ "MyCondition" ≠ "" ∧ (11 : Ptr) ≠ nullptr ∧
        HasConditionFactory (InitFactories (OpenAnimationReplacer.init false))
          "MyCondition" = false)) :=
  AddCustomCondition_after_init (InitFactories (OpenAnimationReplacer.init false))
    "MyPlugin" 1 "MyCondition" 11 rfl

/-- C6, the code at the failing input. Before `InitFactories` the plug-ins
`PluginA` and `PluginB` both register the name `MyCondition`: both calls return
`OK`, the second is not answered `AlreadyRegistered`, and its factory `22` is
dropped, since after `InitFactories` the name builds the object of factory
`11`. -/
theorem AddCustomCondition_duplicate_before_init :
    (AddCustomCondition (OpenAnimationReplacer.init false)
      "PluginA" 1 "MyCondition" 11).1 = APIResult.OK ∧
    (AddCustomCondition (AddCustomCondition (OpenAnimationReplacer.init false)
      "PluginA" 1 "MyCondition" 11).2 "PluginB" 1 "MyCondition" 22).1 = APIResult.OK ∧
    CreateCondition (InitFactories (AddCustomCondition (AddCustomCondition
      (OpenAnimationReplacer.init false) "PluginA" 1 "MyCondition" 11).2
      "PluginB" 1 "MyCondition" 22).2) "MyCondition" = some (ICondition.custom 11) := by
  refine ⟨?_, ?_, ?_⟩ <;> decide

/-- C7, the code at the failing input. Before `InitFactories` a plug-in
registers the name `IsForm` with the factory `11` and is answered `OK`; after
`InitFactories` the name is in the visible table, but `CreateCondition` builds
the built-in `IsFormCondition`, not the object of the registered factory. -/
theorem AddCustomCondition_builtin_name_shadowed :
    (AddCustomCondition (OpenAnimationReplacer.init false)
      "PluginA" 1 "IsForm" 11).1 = APIResult.OK ∧
    HasConditionFactory (InitFactories (AddCustomCondition (OpenAnimationReplacer.init false)
      "PluginA" 1 "IsForm" 11).2) "IsForm" = true ∧
    CreateCondition (InitFactories (AddCustomCondition (OpenAnimationReplacer.init false)
      "PluginA" 1 "IsForm" 11).2) "IsForm" = some (ICondition.builtin "IsFormCondition" []) ∧
    CreateCondition (InitFactories (AddCustomCondition (OpenAnimationReplacer.init false)
      "PluginA" 1 "IsForm" 11).2) "IsForm" ≠ some (Factory.call (Factory.wrap 11)) := by
  refine ⟨?_, ?_, ?_, ?_⟩ <;> decide

/-! ## Replacement lookup -/

/-- C8. `GetReplacementAnimation` on string data returns exactly what the
registered project data's `EvaluateConditionsAndGetReplacementAnimation`
returns when the reference is not null and project data is registered for the
string data; it returns null when the reference is null or nothing is
registered; so a non-null result needs a non-null reference and registered
project data. -/
theorem GetReplacementAnimation_spec (evaluate : ReplacerProjectData → Ptr → Nat → Ptr → Ptr)
    (s : OpenAnimationReplacer) (a_stringData a_clipGenerator : Ptr) (a_originalIndex : Nat)
    (a_refr : Ptr) :
    (∀ projectData, a_refr ≠ nullptr →
      GetReplacerProjectData s a_stringData = some projectData →
      GetReplacementAnimation evaluate s a_stringData a_clipGenerator a_originalIndex a_refr
        = evaluate projectData a_clipGenerator a_originalIndex a_refr) ∧
    (a_refr = nullptr ∨ HasReplacementData s a_stringData = false →
      GetReplacementAnimation evaluate s a_stringData a_clipGenerator a_originalIndex a_refr
        = nullptr) ∧
    (GetReplacementAnimation evaluate s a_stringData a_clipGenerator a_originalIndex a_refr
        ≠ nullptr →
      a_refr ≠ nullptr ∧ HasReplacementData s a_stringData = true) := by
  have hHas : HasReplacementData s a_stringData
      = (GetReplacerProjectData s a_stringData).isSome := rfl
  refine ⟨?_, ?_, ?_⟩
  · intro projectData hRefr hData
    simp [GetReplacementAnimation, hRefr, hData]
  · rintro (hRefr | hNone)
    · simp [GetReplacementAnimation, hRefr]
    · rw [hHas] at hNone
      cases hData : GetReplacerProjectData s a_stringData with
      | none => simp [GetReplacementAnimation, hData]
      | some pd => simp [hData] at hNone
  · intro hResult
    by_cases hRefr : a_refr = nullptr
    · exact absurd (by simp [GetReplacementAnimation, hRefr]) hResult
    · refine ⟨hRefr, ?_⟩
      rw [hHas]
      cases hData : GetReplacerProjectData s a_stringData with
      | none => exact absurd (by simp [GetReplacementAnimation, hData]) hResult
      | some pd => rfl

/-- Instance of C8: project data is registered for the string data `100`, the
reference `5` is not null, and the evaluation returns the animation at
address `900 + index`. -/
theorem GetReplacementAnimation_spec_witness :
    GetReplacementAnimation (fun _ _ index _ => 900 + index) projectSample 100 7 42 5 = 942 :=
  (GetReplacementAnimation_spec (fun _ _ index _ => 900 + index) projectSample 100 7 42 5).1
    (ReplacerProjectData.ctor 100 200) (by decide) rfl

/-! ## Detected problems -/

/-- C9, the code at the failing input. With the two sub mods `1001` and `1002`
recorded as sharing the priority `5`, `NumSubModsSharingPriority` is `1`, the
number of shared priorities, while two sub mods are recorded. -/
theorem NumSubModsSharingPriority_counts_priorities :
    sharedPrioritySample.NumSubModsSharingPriority = 1 ∧
    sharedPrioritySample.totalSubModsSharingPriority = 2 := by
  refine ⟨?_, ?_⟩ <;> decide

/-! ## Merging parse results -/

/-- C10, the code at the failing input. A mod parse result whose `bSuccess`
is false, holding one sub mod result whose `bSuccess` is false, is merged all
the same: starting from the empty registry `CreateReplacementAnimations` adds
the replacer mod `Mod`, its sub mod and the project data of the string data
`100`. The loop over the legacy results does test the flag: the same failed sub
mod result handed over as a legacy result adds nothing. -/
theorem CreateReplacementAnimations_merges_failed_mod :
    failedModSample.bSuccess = false ∧
    failedModSample.subModParseResults.map SubModParseResult.bSuccess = [false] ∧
    (CreateReplacementAnimations (OpenAnimationReplacer.init false) 100 200 10
      [failedModSample] [])._replacerMods = [("Mod", 1)] ∧
    (CreateReplacementAnimations (OpenAnimationReplacer.init false) 100 200 10
      [failedModSample] []).modHeap.map (fun e => (e.1, e.2.subMods.map SubMod.path))
      = [(1, ["Mod\\Sub"])] ∧
    (CreateReplacementAnimations (OpenAnimationReplacer.init false) 100 200 10
      [failedModSample] [])._replacerProjectDatas.map Prod.fst = [100] ∧
    (CreateReplacementAnimations (OpenAnimationReplacer.init false) 100 200 10
      [] [failedSubModSample])._replacerMods = [] ∧
    (CreateReplacementAnimations (OpenAnimationReplacer.init false) 100 200 10
      [] [failedSubModSample]).modHeap = [] ∧
    (CreateReplacementAnimations (OpenAnimationReplacer.init false) 100 200 10
      [] [failedSubModSample])._replacerProjectDatas = [] := by
  refine ⟨?_, ?_, ?_, ?_, ?_, ?_, ?_, ?_⟩ <;> decide

/-! ## Keyed containers: membership, assignment, distinct keys -/

theorem Map.find_eq_none_iff {K V : Type} [DecidableEq K] (m : List (K × V)) (k : K) :
    Map.find m k = none ↔ k ∉ m.map Prod.fst := by
  induction m with
  | nil => simp [Map.find]
  | cons p rest ih =>
    obtain ⟨a, b⟩ := p
    by_cases h : a = k
    · simp [Map.find, h]
    · have h' : ¬ k = a := fun e => h e.symm
      simp [Map.find, h, h', ih]

theorem Map.contains_iff {K V : Type} [DecidableEq K] (m : List (K × V)) (k : K) :
    Map.contains m k = true ↔ k ∈ m.map Prod.fst := by
  unfold Map.contains
  cases hf : Map.find m k with
  | none => simpa using (Map.find_eq_none_iff m k).mp hf
  | some v =>
    have : ¬ (k ∉ m.map Prod.fst) := fun hn => by
      rw [(Map.find_eq_none_iff m k).mpr hn] at hf
      cases hf
    simpa using this

theorem Map.mem_of_find {K V : Type} [DecidableEq K] (m : List (K × V)) (k : K) (v : V)
    (h : Map.find m k = some v) : (k, v) ∈ m := by
  induction m with
  | nil => simp [Map.find] at h
  | cons p rest ih =>
    obtain ⟨a, b⟩ := p
    by_cases hk : a = k
    · subst hk
      simp only [Map.find, if_true, Option.some.injEq] at h
      subst h
      exact List.mem_cons_self _ _
    · simp only [Map.find, hk, if_false] at h
      exact List.mem_cons_of_mem _ (ih h)

theorem Map.find_of_mem {K V : Type} [DecidableEq K] (m : List (K × V)) (k : K) (v : V)
    (hKeys : Map.NodupKeys m) (h : (k, v) ∈ m) : Map.find m k = some v := by
  induction m with
  | nil => cases h
  | cons p rest ih =>
    obtain ⟨a, b⟩ := p
    have hnd : a ∉ rest.map Prod.fst ∧ Map.NodupKeys rest := by
      simpa [Map.NodupKeys] using hKeys
    rcases List.mem_cons.mp h with heq | hrest
    · cases heq
      simp [Map.find]
    · have hne : a ≠ k := by
        intro e
        subst e
        exact hnd.1 (List.mem_map.mpr ⟨(a, v), hrest, rfl⟩)
      simp only [Map.find, hne, if_false]
      exact ih hnd.2 hrest

theorem Map.nodupKeys_append_new {K V : Type} [DecidableEq K] (m : List (K × V)) (k : K) (v : V)
    (hKeys : Map.NodupKeys m) (hNew : Map.find m k = none) :
    Map.NodupKeys (m ++ [(k, v)]) := by
  have hk : k ∉ m.map Prod.fst := (Map.find_eq_none_iff m k).mp hNew
  unfold Map.NodupKeys at hKeys ⊢
  rw [List.map_append, List.nodup_append]
  refine ⟨hKeys, by simp, ?_⟩
  intro a ha hb
  simp only [List.map_cons, List.map_nil, List.mem_singleton] at hb
  subst hb
  exact hk ha

theorem Map.keys_erase_sublist {K V : Type} [DecidableEq K] (m : List (K × V)) (k : K) :
    ((Map.erase m k).map Prod.fst).Sublist (m.map Prod.fst) := by
  induction m with
  | nil => simp [Map.erase]
  | cons p rest ih =>
    obtain ⟨a, b⟩ := p
    by_cases hk : a = k
    · simp only [Map.erase, hk, if_true, List.map_cons]
      exact List.Sublist.cons _ (by simpa [hk] using ih)
    · simp only [Map.erase, hk, if_false, List.map_cons]
      exact List.Sublist.cons₂ _ ih

theorem Map.nodupKeys_erase {K V : Type} [DecidableEq K] (m : List (K × V)) (k : K)
    (hKeys : Map.NodupKeys m) : Map.NodupKeys (Map.erase m k) :=
  List.Nodup.sublist (Map.keys_erase_sublist m k) hKeys

theorem Map.length_erase_le {K V : Type} [DecidableEq K] (m : List (K × V)) (k : K) :
    (Map.erase m k).length ≤ m.length := by
  have := (Map.keys_erase_sublist m k).length_le
  simpa using this

theorem Map.length_erase_lt {K V : Type} [DecidableEq K] (m : List (K × V)) (k : K) (v : V)
    (h : Map.find m k = some v) : (Map.erase m k).length < m.length := by
  induction m with
  | nil => simp [Map.find] at h
  | cons p rest ih =>
    obtain ⟨a, b⟩ := p
    by_cases hk : a = k
    · simp only [Map.erase, hk, if_true, List.length_cons]
      exact Nat.lt_succ_of_le (Map.length_erase_le rest k)
    · simp only [Map.find, hk, if_false] at h
      simp only [Map.erase, hk, if_false, List.length_cons]
      exact Nat.succ_lt_succ (ih h)

theorem Map.find_assign_self {K V : Type} [DecidableEq K] (m : List (K × V)) (k : K) (v w : V)
    (h : Map.find m k = some w) : Map.find (Map.assign m k v) k = some v := by
  induction m with
  | nil => simp [Map.find] at h
  | cons p rest ih =>
    obtain ⟨a, b⟩ := p
    by_cases hk : a = k
    · simp [Map.assign, Map.find, hk]
    · simp only [Map.find, hk, if_false] at h
      simp [Map.assign, Map.find, hk, ih h]

theorem Map.find_assign_ne {K V : Type} [DecidableEq K] (m : List (K × V)) (k k' : K) (v : V)
    (hne : k' ≠ k) : Map.find (Map.assign m k v) k' = Map.find m k' := by
  induction m with
  | nil => rfl
  | cons p rest ih =>
    obtain ⟨a, b⟩ := p
    by_cases hk : a = k
    · subst hk
      simp [Map.assign, Map.find, Ne.symm hne]
    · by_cases hk' : a = k'
      · subst hk'
        simp [Map.assign, Map.find, hk]
      · simp [Map.assign, Map.find, hk, hk', ih]

theorem Map.keys_assign {K V : Type} [DecidableEq K] (m : List (K × V)) (k : K) (v : V) :
    (Map.assign m k v).map Prod.fst = m.map Prod.fst := by
  induction m with
  | nil => rfl
  | cons p rest ih =>
    obtain ⟨a, b⟩ := p
    by_cases hk : a = k
    · simp [Map.assign, hk]
    · simp [Map.assign, hk, ih]

/-! ## Active clip table: absent handles, uniqueness, lookup -/

/-- C11. `RemoveActiveClip` for a clip handle that has no entry in the active
clip table returns the state unchanged; the operation is total, so no failure
is raised. -/
theorem RemoveActiveClip_absent (s : OpenAnimationReplacer) (a_clipGenerator : Ptr)
    (hAbsent : GetActiveClip s a_clipGenerator = none) :
    RemoveActiveClip s a_clipGenerator = s ∧
    (RemoveActiveClip s a_clipGenerator)._activeClips = s._activeClips := by
  have hfind : Map.find s._activeClips a_clipGenerator = none := hAbsent
  have hSame : RemoveActiveClip s a_clipGenerator = s := by
    simp [RemoveActiveClip, hfind]
  exact ⟨hSame, by rw [hSame]⟩

/-- Instance of C11: the table holds the handle `7` only and the handle `8`
is removed. -/
theorem RemoveActiveClip_absent_witness :
    RemoveActiveClip busyClipSample 8 = busyClipSample ∧
    (RemoveActiveClip busyClipSample 8)._activeClips = busyClipSample._activeClips :=
  RemoveActiveClip_absent busyClipSample 8 rfl

/-- C12. `AddOrGetActiveClip` sets the flag to true exactly when the handle
has no entry, and then appends one entry, the new clip it returns, for that
handle; when the handle has an entry it returns that entry with the flag false
and the state unchanged. Distinct keys stay distinct, so the table never holds
two clips for one handle, and the entry of every other handle is the same
before and after. -/
theorem AddOrGetActiveClip_spec (newClip : Ptr → Ptr → ActiveClip)
    (s : OpenAnimationReplacer) (a_clipGenerator : Ptr) (a_context : hkbContext) :
    ((AddOrGetActiveClip newClip s a_clipGenerator a_context).2.1 = true ↔
      GetActiveClip s a_clipGenerator = none) ∧
    (GetActiveClip s a_clipGenerator = none →
      (AddOrGetActiveClip newClip s a_clipGenerator a_context).1
        = newClip a_clipGenerator a_context.character ∧
      (AddOrGetActiveClip newClip s a_clipGenerator a_context).2.2._activeClips
        = s._activeClips ++
          [(a_clipGenerator, (AddOrGetActiveClip newClip s a_clipGenerator a_context).1)]) ∧
    (∀ existing, GetActiveClip s a_clipGenerator = some existing →
      AddOrGetActiveClip newClip s a_clipGenerator a_context = (existing, false, s)) ∧
    (Map.NodupKeys s._activeClips →
      Map.NodupKeys (AddOrGetActiveClip newClip s a_clipGenerator a_context).2.2._activeClips) ∧
    (∀ other, other ≠ a_clipGenerator →
      GetActiveClip (AddOrGetActiveClip newClip s a_clipGenerator a_context).2.2 other
        = GetActiveClip s other) := by
  cases hfind : Map.find s._activeClips a_clipGenerator with
  | none =>
    have hGet : GetActiveClip s a_clipGenerator = none := hfind
    refine ⟨?_, ?_, ?_, ?_, ?_⟩
    · simp [AddOrGetActiveClip, hfind, hGet]
    · intro _
      simp [AddOrGetActiveClip, hfind]
    · intro existing hEx
      rw [hGet] at hEx
      cases hEx
    · intro hKeys
      simpa [AddOrGetActiveClip, hfind] using
        Map.nodupKeys_append_new s._activeClips a_clipGenerator
          (newClip a_clipGenerator a_context.character) hKeys hfind
    · intro other hne
      simp only [AddOrGetActiveClip, hfind, GetActiveClip, Map.find_append]
      cases Map.find s._activeClips other with
      | none => simp [Ne.symm hne]
      | some c => rfl
  | some existing =>
    have hGet : GetActiveClip s a_clipGenerator = some existing := hfind
    refine ⟨?_, ?_, ?_, ?_, ?_⟩
    · simp [AddOrGetActiveClip, hfind, hGet]
    · intro hNone
      rw [hGet] at hNone
      cases hNone
    · intro e hEx
      rw [hGet] at hEx
      cases hEx
      simp [AddOrGetActiveClip, hfind]
    · intro hKeys
      simpa [AddOrGetActiveClip, hfind] using hKeys
    · intro other _
      simp [AddOrGetActiveClip, hfind]

/-- Instance of C12: the handle `7` has an entry, which is returned with the
flag false and the state unchanged. -/
theorem AddOrGetActiveClip_spec_witness :
    AddOrGetActiveClip (fun g c => ⟨g, c, false⟩) busyClipSample 7 ⟨3⟩
      = (⟨7, 3, true⟩, false, busyClipSample) :=
  (AddOrGetActiveClip_spec (fun g c => ⟨g, c, false⟩) busyClipSample 7 ⟨3⟩).2.2.1
    ⟨7, 3, true⟩ rfl

/-- C13. `GetActiveClip` returns a clip exactly when the table has an entry
for the handle, the clip it returns is an entry of the table for that handle,
and with distinct keys it is the entry. Right after `AddOrGetActiveClip` it
returns the clip that call returned, and after `RemoveActiveClip` on a clip
that is not transitioning it returns none. `GetActiveClip` is a function of the
state alone (the member is `const` and only reads), so the table it is given is
the table afterwards. -/
theorem GetActiveClip_spec (newClip : Ptr → Ptr → ActiveClip)
    (s : OpenAnimationReplacer) (a_clipGenerator : Ptr) (a_context : hkbContext) :
    ((GetActiveClip s a_clipGenerator).isSome = true ↔
      a_clipGenerator ∈ s._activeClips.map Prod.fst) ∧
    (∀ clip, GetActiveClip s a_clipGenerator = some clip →
      (a_clipGenerator, clip) ∈ s._activeClips) ∧
    (Map.NodupKeys s._activeClips → ∀ clip, (a_clipGenerator, clip) ∈ s._activeClips →
      GetActiveClip s a_clipGenerator = some clip) ∧
    GetActiveClip (AddOrGetActiveClip newClip s a_clipGenerator a_context).2.2 a_clipGenerator
      = some (AddOrGetActiveClip newClip s a_clipGenerator a_context).1 ∧
    (∀ clip, GetActiveClip s a_clipGenerator = some clip → clip.IsTransitioning = false →
      GetActiveClip (RemoveActiveClip s a_clipGenerator) a_clipGenerator = none) := by
  refine ⟨Map.contains_iff s._activeClips a_clipGenerator,
    fun clip h => Map.mem_of_find _ _ _ h,
    fun hKeys clip h => Map.find_of_mem _ _ _ hKeys h, ?_, ?_⟩
  · cases hfind : Map.find s._activeClips a_clipGenerator with
    | none => simp [AddOrGetActiveClip, hfind, GetActiveClip, Map.find_append]
    | some existing => simp [AddOrGetActiveClip, hfind, GetActiveClip]
  · intro clip hGet hIdle
    have hfind : Map.find s._activeClips a_clipGenerator = some clip := hGet
    simp [RemoveActiveClip, hfind, hIdle, GetActiveClip, Map.find_erase_self]

/-- Instance of C13: the handle `7` is added to the empty table, looked up,
removed and looked up again. -/
theorem GetActiveClip_spec_witness :
    GetActiveClip (AddOrGetActiveClip (fun g c => ⟨g, c, false⟩)
        (OpenAnimationReplacer.init false) 7 ⟨3⟩).2.2 7
      = some (AddOrGetActiveClip (fun g c => ⟨g, c, false⟩)
        (OpenAnimationReplacer.init false) 7 ⟨3⟩).1 ∧
    GetActiveClip (RemoveActiveClip (AddOrGetActiveClip (fun g c => ⟨g, c, false⟩)
        (OpenAnimationReplacer.init false) 7 ⟨3⟩).2.2 7) 7 = none :=
  ⟨(GetActiveClip_spec (fun g c => ⟨g, c, false⟩) (OpenAnimationReplacer.init false) 7
      ⟨3⟩).2.2.2.1,
   (GetActiveClip_spec (fun g c => ⟨g, c, false⟩)
      (AddOrGetActiveClip (fun g c => ⟨g, c, false⟩)
        (OpenAnimationReplacer.init false) 7 ⟨3⟩).2.2 7 ⟨3⟩).2.2.2.2 ⟨7, 3, false⟩ rfl rfl⟩

/-! ## Condition factories: result codes and creation -/

theorem AddCustomCondition_tables (s : OpenAnimationReplacer) (a_pluginName : String)
    (a_pluginVersion : Nat) (a_conditionName : String) (a_conditionFactory : Ptr) :
    (AddCustomCondition s a_pluginName a_pluginVersion a_conditionName
      a_conditionFactory).2._conditionFactories = s._conditionFactories ∧
    (AddCustomCondition s a_pluginName a_pluginVersion a_conditionName
      a_conditionFactory).2._hiddenConditionFactories = s._hiddenConditionFactories ∧
    (AddCustomCondition s a_pluginName a_pluginVersion a_conditionName
      a_conditionFactory).2._bFactoriesInitialized = s._bFactoriesInitialized := by
  unfold AddCustomCondition
  split
  · exact ⟨rfl, rfl, rfl⟩
  · split
    · exact ⟨rfl, rfl, rfl⟩
    · split
      · exact ⟨rfl, rfl, rfl⟩
      · exact ⟨rfl, rfl, rfl⟩

theorem addCustomConditions_tables (calls : List (String × Nat × String × Ptr))
    (s : OpenAnimationReplacer) :
    (addCustomConditions s calls)._conditionFactories = s._conditionFactories ∧
    (addCustomConditions s calls)._hiddenConditionFactories = s._hiddenConditionFactories ∧
    (addCustomConditions s calls)._bFactoriesInitialized = s._bFactoriesInitialized := by
  induction calls generalizing s with
  | nil => exact ⟨rfl, rfl, rfl⟩
  | cons c rest ih =>
    have hstep := AddCustomCondition_tables s c.1 c.2.1 c.2.2.1 c.2.2.2
    have hrest := ih (AddCustomCondition s c.1 c.2.1 c.2.2.1 c.2.2.2).2
    simp only [addCustomConditions, List.foldl_cons] at hrest ⊢
    exact ⟨hrest.1.trans hstep.1, hrest.2.1.trans hstep.2.1, hrest.2.2.trans hstep.2.2⟩

/-- C14. The result of `AddCustomCondition` is decided in this order: it is
`Invalid` exactly when the plug-in name is empty, the condition name is empty
or the factory is null; otherwise `AlreadyRegistered` exactly when the visible
factory table has the condition name; otherwise `Failed` exactly when the
factories are initialized; otherwise `OK`. -/
theorem AddCustomCondition_result (s : OpenAnimationReplacer) (a_pluginName : String)
    (a_pluginVersion : Nat) (a_conditionName : String) (a_conditionFactory : Ptr) :
    ((AddCustomCondition s a_pluginName a_pluginVersion a_conditionName
        a_conditionFactory).1 = APIResult.Invalid ↔
      (a_pluginName = "" ∨ a_conditionName = "" ∨ a_conditionFactory = nullptr)) ∧
    ((AddCustomCondition s a_pluginName a_pluginVersion a_conditionName
        a_conditionFactory).1 = APIResult.AlreadyRegistered ↔
      (¬ (a_pluginName = "" ∨ a_conditionName = "" ∨ a_conditionFactory = nullptr) ∧
        HasConditionFactory s a_conditionName = true)) ∧
    ((AddCustomCondition s a_pluginName a_pluginVersion a_conditionName
        a_conditionFactory).1 = APIResult.Failed ↔
      (¬ (a_pluginName = "" ∨ a_conditionName = "" ∨ a_conditionFactory = nullptr) ∧
        HasConditionFactory s a_conditionName = false ∧
        AreFactoriesInitialized s = true)) ∧
    ((AddCustomCondition s a_pluginName a_pluginVersion a_conditionName
        a_conditionFactory).1 = APIResult.OK ↔
      (¬ (a_pluginName = "" ∨ a_conditionName = "" ∨ a_conditionFactory = nullptr) ∧
        HasConditionFactory s a_conditionName = false ∧
        AreFactoriesInitialized s = false)) := by
  unfold AddCustomCondition AreFactoriesInitialized
  by_cases hInvalid : a_pluginName = "" ∨ a_conditionName = "" ∨ a_conditionFactory = nullptr
  · rw [if_pos hInvalid]
    simp [hInvalid]
  · rw [if_neg hInvalid]
    cases hHas : HasConditionFactory s a_conditionName with
    | true => simp [hInvalid]
    | false =>
      cases hInit : s._bFactoriesInitialized with
      | true => simp [hInvalid]
      | false => simp [hInvalid]

/-- Instance of C14: a valid registration of a new name before
`InitFactories` is answered `OK`. -/
theorem AddCustomCondition_result_witness :
    (AddCustomCondition (OpenAnimationReplacer.init false)
      "MyPlugin" 1 "MyCondition" 11).1 = APIResult.OK :=
  (AddCustomCondition_result (OpenAnimationReplacer.init false)
    "MyPlugin" 1 "MyCondition" 11).2.2.2.mpr ⟨by decide, rfl, rfl⟩

theorem HasReplacementData_eq (s : OpenAnimationReplacer) (a_stringData : Ptr) :
    HasReplacementData s a_stringData = (GetReplacerProjectData s a_stringData).isSome := rfl

/-- C16. `GetOrAddReplacerProjectData` returns the registered project data and
leaves the state unchanged when the graph identity has one; only when it has
none does it create one and append it to the registry. After it returns,
`HasReplacementData` is true for the identity, `GetReplacerProjectData` returns
the same entry, and a second call returns that entry again without changing the
state. -/
theorem GetOrAddReplacerProjectData_spec (s : OpenAnimationReplacer)
    (a_stringData a_projectDBData a_projectDBData2 : Ptr) :
    (∀ registered, GetReplacerProjectData s a_stringData = some registered →
      GetOrAddReplacerProjectData s a_stringData a_projectDBData = (registered, s)) ∧
    (GetReplacerProjectData s a_stringData = none →
      (GetOrAddReplacerProjectData s a_stringData a_projectDBData).1
        = ReplacerProjectData.ctor a_stringData a_projectDBData ∧
      (GetOrAddReplacerProjectData s a_stringData a_projectDBData).2._replacerProjectDatas
        = s._replacerProjectDatas ++
          [(a_stringData, (GetOrAddReplacerProjectData s a_stringData a_projectDBData).1)]) ∧
    HasReplacementData (GetOrAddReplacerProjectData s a_stringData a_projectDBData).2
      a_stringData = true ∧
    GetReplacerProjectData (GetOrAddReplacerProjectData s a_stringData a_projectDBData).2
      a_stringData = some (GetOrAddReplacerProjectData s a_stringData a_projectDBData).1 ∧
    GetOrAddReplacerProjectData (GetOrAddReplacerProjectData s a_stringData a_projectDBData).2
      a_stringData a_projectDBData2
      = GetOrAddReplacerProjectData s a_stringData a_projectDBData := by
  have hAfter : GetReplacerProjectData
      (GetOrAddReplacerProjectData s a_stringData a_projectDBData).2 a_stringData
      = some (GetOrAddReplacerProjectData s a_stringData a_projectDBData).1 := by
    cases hfind : GetReplacerProjectData s a_stringData with
    | some registered => simp [GetOrAddReplacerProjectData, hfind]
    | none =>
      have hfind' : Map.find s._replacerProjectDatas a_stringData = none := hfind
      have hc : Map.contains s._replacerProjectDatas a_stringData = false := by
        simp [Map.contains, hfind']
      simp [GetOrAddReplacerProjectData, hfind, GetReplacerProjectData, Map.emplace, hc,
        Map.find_append, hfind']
  have hSome : ∀ (t : OpenAnimationReplacer) (db : Ptr) (registered : ReplacerProjectData),
      GetReplacerProjectData t a_stringData = some registered →
      GetOrAddReplacerProjectData t a_stringData db = (registered, t) := by
    intro t db registered h
    simp [GetOrAddReplacerProjectData, h]
  refine ⟨hSome s a_projectDBData, ?_, ?_, hAfter, ?_⟩
  · intro h
    have hfind' : Map.find s._replacerProjectDatas a_stringData = none := h
    have hc : Map.contains s._replacerProjectDatas a_stringData = false := by
      simp [Map.contains, hfind']
    simp [GetOrAddReplacerProjectData, h, Map.emplace, hc]
  · rw [HasReplacementData_eq, hAfter]
    rfl
  · exact hSome _ a_projectDBData2 _ hAfter

/-- Instance of C16: the string data `500` has no project data in the sample
registry, so one is created; the string data `100` has one, which is
returned. -/
theorem GetOrAddReplacerProjectData_spec_witness :
    GetOrAddReplacerProjectData projectSample 100 999
      = (ReplacerProjectData.ctor 100 200, projectSample) ∧
    (GetOrAddReplacerProjectData projectSample 500 600).1 = ReplacerProjectData.ctor 500 600 :=
  ⟨(GetOrAddReplacerProjectData_spec projectSample 100 999 0).1
      (ReplacerProjectData.ctor 100 200) rfl,
   ((GetOrAddReplacerProjectData_spec projectSample 500 600 0).2.1 rfl).1⟩

/-- C17. `RemoveReplacementData` returns true exactly when the project had
replacement data; afterwards `HasReplacementData` is false and
`GetReplacerProjectData` is none for that project, and the data of every other
project is what it was. -/
theorem RemoveReplacementData_spec (s : OpenAnimationReplacer) (a_stringData : Ptr) :
    ((RemoveReplacementData s a_stringData).1 = true ↔
      HasReplacementData s a_stringData = true) ∧
    HasReplacementData (RemoveReplacementData s a_stringData).2 a_stringData = false ∧
    GetReplacerProjectData (RemoveReplacementData s a_stringData).2 a_stringData = none ∧
    (∀ other, other ≠ a_stringData →
      GetReplacerProjectData (RemoveReplacementData s a_stringData).2 other
        = GetReplacerProjectData s other) := by
  have hGone : GetReplacerProjectData (RemoveReplacementData s a_stringData).2 a_stringData
      = none := Map.find_erase_self s._replacerProjectDatas a_stringData
  refine ⟨?_, ?_, hGone, ?_⟩
  · rw [HasReplacementData_eq]
    cases hfind : GetReplacerProjectData s a_stringData with
    | none =>
      have hfind' : Map.find s._replacerProjectDatas a_stringData = none := hfind
      simp [RemoveReplacementData, Map.erase_of_find_none _ _ hfind']
    | some registered =>
      have hlt := Map.length_erase_lt s._replacerProjectDatas a_stringData registered hfind
      have hpos : s._replacerProjectDatas.length
          - (Map.erase s._replacerProjectDatas a_stringData).length ≠ 0 := by omega
      simp [RemoveReplacementData, hpos]
  · rw [HasReplacementData_eq, hGone]
    rfl
  · intro other hne
    exact Map.find_erase_ne s._replacerProjectDatas a_stringData other hne

/-- Instance of C17: the project `100` of the sample registry is removed; the
project `300` keeps its data. -/
theorem RemoveReplacementData_spec_witness :
    GetReplacerProjectData (RemoveReplacementData policySample 100).2 300
      = GetReplacerProjectData policySample 300 :=
  (RemoveReplacementData_spec policySample 100).2.2.2 300 (by decide)

/-- C18. `CreateReplacementAnimations` called with a null graph identity, or
for a graph identity that already has replacement data, returns the state it
was given: the project registry, the mod registry, the factory tables and the
synchronized-clip offsets are unchanged, whatever the scan would deliver. -/
theorem CreateReplacementAnimations_once (s : OpenAnimationReplacer)
    (a_stringData a_projectDBData : Ptr) (numAnimationNames : Nat)
    (modFutures : List ModParseResult) (legacyFutures : List SubModParseResult)
    (other : Ptr)
    (h : a_stringData = nullptr ∨ HasReplacementData s a_stringData = true) :
    CreateReplacementAnimations s a_stringData a_projectDBData numAnimationNames
      modFutures legacyFutures = s ∧
    GetSynchronizedClipsIDOffset (CreateReplacementAnimations s a_stringData a_projectDBData
      numAnimationNames modFutures legacyFutures) other
      = GetSynchronizedClipsIDOffset s other := by
  have hSame : CreateReplacementAnimations s a_stringData a_projectDBData numAnimationNames
      modFutures legacyFutures = s := by
    unfold CreateReplacementAnimations
    rcases h with hNull | hHas
    · simp [hNull]
    · simp [hHas]
  exact ⟨hSame, by rw [hSame]⟩

/-- Instance of C18: the project `100` of the sample registry has data, and
the call is given a mod result to merge. -/
theorem CreateReplacementAnimations_once_witness :
    CreateReplacementAnimations projectSample 100 200 10 [failedModSample] [] = projectSample ∧
    GetSynchronizedClipsIDOffset (CreateReplacementAnimations projectSample 100 200 10
      [failedModSample] []) 100 = GetSynchronizedClipsIDOffset projectSample 100 :=
  CreateReplacementAnimations_once projectSample 100 200 10 [failedModSample] [] 100
    (Or.inr rfl)

/-! ## Policy queries -/

/-- C19. `IsOriginalAnimationInterruptible` and
`ShouldOriginalAnimationKeepRandomResultsOnLoop` return false when the original
index is `0xFFFF`, the character is null, the character has no graph identity
with registered project data (its string data is null or has no
`ReplacerProjectData`), or the project has no `AnimationReplacements` for the
index; in every other case each returns the corresponding flag of that
`AnimationReplacements`. -/
theorem policy_queries_spec (GetStringDataFromHkbCharacter : Ptr → Ptr)
    (s : OpenAnimationReplacer) (a_character : Ptr) (a_originalIndex : Nat) :
    ((a_originalIndex = invalidIndex ∨ a_character = nullptr ∨
        GetStringDataFromHkbCharacter a_character = nullptr ∨
        GetReplacerProjectData s (GetStringDataFromHkbCharacter a_character) = none ∨
        (∃ projectData,
          GetReplacerProjectData s (GetStringDataFromHkbCharacter a_character)
            = some projectData ∧
          projectData.GetAnimationReplacements a_originalIndex = none)) →
      IsOriginalAnimationInterruptible GetStringDataFromHkbCharacter s a_character
        a_originalIndex = false ∧
      ShouldOriginalAnimationKeepRandomResultsOnLoop GetStringDataFromHkbCharacter s
        a_character a_originalIndex = false) ∧
    (∀ projectData replacements,
      a_originalIndex ≠ invalidIndex → a_character ≠ nullptr →
      GetStringDataFromHkbCharacter a_character ≠ nullptr →
      GetReplacerProjectData s (GetStringDataFromHkbCharacter a_character)
        = some projectData →
      projectData.GetAnimationReplacements a_originalIndex = some replacements →
      IsOriginalAnimationInterruptible GetStringDataFromHkbCharacter s a_character
        a_originalIndex = replacements.IsOriginalInterruptible ∧
      ShouldOriginalAnimationKeepRandomResultsOnLoop GetStringDataFromHkbCharacter s
        a_character a_originalIndex = replacements.ShouldOriginalKeepRandomResultsOnLoop) := by
  refine ⟨?_, ?_⟩
  · rintro (hIndex | hChar | hData | hNone | ⟨projectData, hSome, hRepl⟩)
    · simp [IsOriginalAnimationInterruptible, ShouldOriginalAnimationKeepRandomResultsOnLoop,
        hIndex]
    · simp [IsOriginalAnimationInterruptible, ShouldOriginalAnimationKeepRandomResultsOnLoop,
        hChar]
    · simp [IsOriginalAnimationInterruptible, ShouldOriginalAnimationKeepRandomResultsOnLoop,
        hData]
    · simp [IsOriginalAnimationInterruptible, ShouldOriginalAnimationKeepRandomResultsOnLoop,
        hNone]
    · simp [IsOriginalAnimationInterruptible, ShouldOriginalAnimationKeepRandomResultsOnLoop,
        hSome, hRepl]
  · intro projectData replacements hIndex hChar hData hSome hRepl
    simp [IsOriginalAnimationInterruptible, ShouldOriginalAnimationKeepRandomResultsOnLoop,
      hIndex, hChar, hData, hSome, hRepl]

/-- Instance of C19: the character `11` belongs to the project `100`, which
has replacements for the index `42` that are interruptible and do not keep
random results. -/
theorem policy_queries_spec_witness :
    IsOriginalAnimationInterruptible sampleStringData policySample 11 42 = true ∧
    ShouldOriginalAnimationKeepRandomResultsOnLoop sampleStringData policySample 11 42
      = false :=
  (policy_queries_spec sampleStringData policySample 11 42).2
    { stringData := 100, projectDBData := 200, synchronizedClipIDOffset := 0,
      animationReplacements := [(42, ⟨true, false⟩)] }
    ⟨true, false⟩ (by decide) (by decide) (by decide) rfl rfl

/-! ## Synchronized-clip offset -/

/-- C20. For a project with registered data, `GetSynchronizedClipsIDOffset`
after `SetSynchronizedClipsIDOffset` returns the offset that was set; the
offset of every other project is what it was; for a project with no registered
data the set leaves the state unchanged and the get returns `0`. -/
theorem SynchronizedClipsIDOffset_round_trip (s : OpenAnimationReplacer)
    (a_stringData : Ptr) (a_offset : Nat) :
    (HasReplacementData s a_stringData = true →
      GetSynchronizedClipsIDOffset (SetSynchronizedClipsIDOffset s a_stringData a_offset)
        a_stringData = a_offset) ∧
    (∀ other, other ≠ a_stringData →
      GetSynchronizedClipsIDOffset (SetSynchronizedClipsIDOffset s a_stringData a_offset)
        other = GetSynchronizedClipsIDOffset s other) ∧
    (HasReplacementData s a_stringData = false →
      SetSynchronizedClipsIDOffset s a_stringData a_offset = s ∧
      GetSynchronizedClipsIDOffset s a_stringData = 0) := by
  refine ⟨?_, ?_, ?_⟩
  · intro hHas
    cases hfind : Map.find s._replacerProjectDatas a_stringData with
    | none => simp [HasReplacementData, Map.contains, hfind] at hHas
    | some registered =>
      simp [SetSynchronizedClipsIDOffset, GetSynchronizedClipsIDOffset, hfind,
        Map.find_assign_self _ _ _ _ hfind]
  · intro other hne
    cases hfind : Map.find s._replacerProjectDatas a_stringData with
    | none => simp [SetSynchronizedClipsIDOffset, hfind]
    | some registered =>
      simp [SetSynchronizedClipsIDOffset, GetSynchronizedClipsIDOffset, hfind,
        Map.find_assign_ne _ _ _ _ hne]
  · intro hHas
    cases hfind : Map.find s._replacerProjectDatas a_stringData with
    | none => simp [SetSynchronizedClipsIDOffset, GetSynchronizedClipsIDOffset, hfind]
    | some registered => simp [HasReplacementData, Map.contains, hfind] at hHas

/-- Instance of C20: the offset of the project `100` is set to `57`. -/
theorem SynchronizedClipsIDOffset_round_trip_witness :
    GetSynchronizedClipsIDOffset (SetSynchronizedClipsIDOffset policySample 100 57) 100 = 57 ∧
    GetSynchronizedClipsIDOffset (SetSynchronizedClipsIDOffset policySample 100 57) 300
      = GetSynchronizedClipsIDOffset policySample 300 :=
  ⟨(SynchronizedClipsIDOffset_round_trip policySample 100 57).1 rfl,
   (SynchronizedClipsIDOffset_round_trip policySample 100 57).2.1 300 (by decide)⟩

/-! ## Job queue: the lock during a drain -/

theorem InitFactories_replacerProjectDatas (s : OpenAnimationReplacer) :
    (InitFactories s)._replacerProjectDatas = s._replacerProjectDatas := by
  unfold InitFactories
  split <;> rfl

theorem GetSynchronizedClipsIDOffset_of_set (t : OpenAnimationReplacer) (a_stringData : Ptr)
    (a_offset : Nat)
    (hHas : HasReplacementData (SetSynchronizedClipsIDOffset t a_stringData a_offset)
      a_stringData = true) :
    GetSynchronizedClipsIDOffset (SetSynchronizedClipsIDOffset t a_stringData a_offset)
      a_stringData = a_offset := by
  cases hfind : Map.find t._replacerProjectDatas a_stringData with
  | none =>
    simp [SetSynchronizedClipsIDOffset, hfind, HasReplacementData, Map.contains] at hHas
  | some registered =>
    simp [SetSynchronizedClipsIDOffset, GetSynchronizedClipsIDOffset, hfind,
      Map.find_assign_self _ _ _ _ hfind]

/-- C22, as stated, fails. A project with `65536` animation names gets
replacement data from one parsed mod; the saved offset is `0`, not `65536`, so
the original index `0` is not strictly below it. -/
theorem CreateReplacementAnimations_offset_wraps :
    HasReplacementData (CreateReplacementAnimations (OpenAnimationReplacer.init false)
      100 200 65536 [parsedModSample] []) 100 = true ∧
    GetSynchronizedClipsIDOffset (CreateReplacementAnimations (OpenAnimationReplacer.init false)
      100 200 65536 [parsedModSample] []) 100 = 0 ∧
    ¬ (0 < GetSynchronizedClipsIDOffset (CreateReplacementAnimations
      (OpenAnimationReplacer.init false) 100 200 65536 [parsedModSample] []) 100) := by
  refine ⟨?_, ?_, ?_⟩ <;> decide

/-- C22, amended. For a project that had no replacement data before
`CreateReplacementAnimations` and has replacement data after it, the saved
offset is the number `n` of animation names converted to an unsigned 16-bit
value, `n mod 65536`; when `n` is below `65536` the offset equals `n` and every
original index below `n` is strictly below the offset. -/
theorem CreateReplacementAnimations_offset (s : OpenAnimationReplacer)
    (a_stringData a_projectDBData : Ptr) (numAnimationNames : Nat)
    (modFutures : List ModParseResult) (legacyFutures : List SubModParseResult)
    (hNew : HasReplacementData s a_stringData = false)
    (hData : HasReplacementData (CreateReplacementAnimations s a_stringData a_projectDBData
      numAnimationNames modFutures legacyFutures) a_stringData = true) :
    GetSynchronizedClipsIDOffset (CreateReplacementAnimations s a_stringData a_projectDBData
      numAnimationNames modFutures legacyFutures) a_stringData = numAnimationNames % 65536 ∧
    (numAnimationNames < 65536 →
      GetSynchronizedClipsIDOffset (CreateReplacementAnimations s a_stringData a_projectDBData
        numAnimationNames modFutures legacyFutures) a_stringData = numAnimationNames ∧
      ∀ index, index < numAnimationNames →
        index < GetSynchronizedClipsIDOffset (CreateReplacementAnimations s a_stringData
          a_projectDBData numAnimationNames modFutures legacyFutures) a_stringData) := by
  have hOffset : GetSynchronizedClipsIDOffset (CreateReplacementAnimations s a_stringData
      a_projectDBData numAnimationNames modFutures legacyFutures) a_stringData
      = numAnimationNames % 65536 := by
    unfold CreateReplacementAnimations at hData ⊢
    by_cases hNull : a_stringData = nullptr
    · simp [hNull] at hData
      simp [hNull] at hNew
      rw [hNew] at hData
      cases hData
    · simp only [ne_eq, hNull, not_false_eq_true, if_true, hNew, Bool.false_eq_true,
        if_false] at hData ⊢
      by_cases hEmpty : (modFutures.isEmpty && legacyFutures.isEmpty) = true
      · simp only [hEmpty, if_true] at hData
        have hKeep : HasReplacementData
            (if (!AreFactoriesInitialized s) = true then InitFactories s else s) a_stringData
            = HasReplacementData s a_stringData := by
          split
          · simp [HasReplacementData, InitFactories_replacerProjectDatas]
          · rfl
        rw [hKeep, hNew] at hData
        cases hData
      · simp only [hEmpty, if_false] at hData ⊢
        exact GetSynchronizedClipsIDOffset_of_set _ _ _ hData
  refine ⟨hOffset, ?_⟩
  intro hSmall
  have hEq : numAnimationNames % 65536 = numAnimationNames := Nat.mod_eq_of_lt hSmall
  rw [hOffset, hEq]
  exact ⟨rfl, fun index h => h⟩

/-- Instance of amended C22: a project with `120` animation names gets
replacement data from one parsed mod. -/
theorem CreateReplacementAnimations_offset_witness :
    GetSynchronizedClipsIDOffset (CreateReplacementAnimations (OpenAnimationReplacer.init false)
      100 200 120 [parsedModSample] []) 100 = 120 % 65536 ∧
    (120 < 65536 →
      GetSynchronizedClipsIDOffset (CreateReplacementAnimations
        (OpenAnimationReplacer.init false) 100 200 120 [parsedModSample] []) 100 = 120 ∧
      ∀ index, index < 120 →
        index < GetSynchronizedClipsIDOffset (CreateReplacementAnimations
          (OpenAnimationReplacer.init false) 100 200 120 [parsedModSample] []) 100) :=
  CreateReplacementAnimations_offset (OpenAnimationReplacer.init false) 100 200 120
    [parsedModSample] [] rfl (by decide)

/-! ## Replacement lookup for a character -/

/-- C23. `GetReplacementAnimation` on a character returns null whenever the
flag `bIsPreLoading` is set, and returns null whenever the original index is the
sentinel `0xFFFF`, whatever replacement data is registered and whatever the
evaluation of the project would return. -/
theorem GetReplacementAnimation_hkbCharacter_guards (GetStringDataFromHkbCharacter : Ptr → Ptr)
    (holder : Ptr → Ptr) (evaluate : ReplacerProjectData → Ptr → Nat → Ptr → Ptr)
    (s : OpenAnimationReplacer) (a_character a_clipGenerator : Ptr) (a_originalIndex : Nat) :
    (s.bIsPreLoading = true →
      GetReplacementAnimation_hkbCharacter GetStringDataFromHkbCharacter holder evaluate s
        a_character a_clipGenerator a_originalIndex = nullptr) ∧
    (a_originalIndex = invalidIndex →
      GetReplacementAnimation_hkbCharacter GetStringDataFromHkbCharacter holder evaluate s
        a_character a_clipGenerator a_originalIndex = nullptr) := by
  refine ⟨?_, ?_⟩
  · intro hPre
    simp [GetReplacementAnimation_hkbCharacter, hPre]
  · intro hIndex
    simp [GetReplacementAnimation_hkbCharacter, hIndex]

/-- Instance of C23: the character `11` of the project `100`, whose evaluation
would return the animation `942`, gets null while preloading and null for the
index `0xFFFF`; outside these two cases the same call returns `942`. -/
theorem GetReplacementAnimation_hkbCharacter_guards_witness :
    GetReplacementAnimation_hkbCharacter sampleStringData (fun _ => 5)
      (fun _ _ index _ => 900 + index) preloadingSample 11 7 42 = nullptr ∧
    GetReplacementAnimation_hkbCharacter sampleStringData (fun _ => 5)
      (fun _ _ index _ => 900 + index) projectSample 11 7 invalidIndex = nullptr ∧
    GetReplacementAnimation_hkbCharacter sampleStringData (fun _ => 5)
      (fun _ _ index _ => 900 + index) projectSample 11 7 42 = 942 :=
  ⟨(GetReplacementAnimation_hkbCharacter_guards sampleStringData (fun _ => 5)
      (fun _ _ index _ => 900 + index) preloadingSample 11 7 42).1 rfl,
   (GetReplacementAnimation_hkbCharacter_guards sampleStringData (fun _ => 5)
      (fun _ _ index _ => 900 + index) projectSample 11 7 invalidIndex).2 rfl,
   by decide⟩

/-! ## Condition factories: failed registrations -/

/-- C24. Whenever `AddCustomCondition` returns `Invalid`, `AlreadyRegistered`
or `Failed`, the state is the state it was given: the custom-plug-in table, the
custom-factory table and the visible and hidden factory tables are
unchanged. -/
theorem AddCustomCondition_atomic (s : OpenAnimationReplacer) (a_pluginName : String)
    (a_pluginVersion : Nat) (a_conditionName : String) (a_conditionFactory : Ptr)
    (hFailed : (AddCustomCondition s a_pluginName a_pluginVersion a_conditionName
      a_conditionFactory).1 = APIResult.Invalid ∨
      (AddCustomCondition s a_pluginName a_pluginVersion a_conditionName
        a_conditionFactory).1 = APIResult.AlreadyRegistered ∨
      (AddCustomCondition s a_pluginName a_pluginVersion a_conditionName
        a_conditionFactory).1 = APIResult.Failed) :
    (AddCustomCondition s a_pluginName a_pluginVersion a_conditionName
      a_conditionFactory).2 = s ∧
    (AddCustomCondition s a_pluginName a_pluginVersion a_conditionName
      a_conditionFactory).2._customConditionPlugins = s._customConditionPlugins ∧
    (AddCustomCondition s a_pluginName a_pluginVersion a_conditionName
      a_conditionFactory).2._customConditionFactories = s._customConditionFactories ∧
    (AddCustomCondition s a_pluginName a_pluginVersion a_conditionName
      a_conditionFactory).2._conditionFactories = s._conditionFactories ∧
    (AddCustomCondition s a_pluginName a_pluginVersion a_conditionName
      a_conditionFactory).2._hiddenConditionFactories = s._hiddenConditionFactories := by
  have hSame : (AddCustomCondition s a_pluginName a_pluginVersion a_conditionName
      a_conditionFactory).2 = s := by
    unfold AddCustomCondition at hFailed ⊢
    split
    · rfl
    · split
      · rfl
      · split
        · rfl
        · rename_i h1 h2 h3
          simp [h1, h2, h3] at hFailed
  rw [hSame]
  exact ⟨rfl, rfl, rfl, rfl, rfl⟩

/-- Instance of C24: a registration with an empty plug-in name on a state
that already holds a custom condition. -/
theorem AddCustomCondition_atomic_witness :
    (AddCustomCondition (addCustomConditions (OpenAnimationReplacer.init false)
      [("PluginA", 1, "MyCondition", 11)]) "" 1 "Other" 22).2
      = addCustomConditions (OpenAnimationReplacer.init false)
        [("PluginA", 1, "MyCondition", 11)] :=
  (AddCustomCondition_atomic (addCustomConditions (OpenAnimationReplacer.init false)
    [("PluginA", 1, "MyCondition", 11)]) "" 1 "Other" 22 (Or.inl (by decide))).1

/-! ## Condition factories: the tables after initialization -/

theorem Map.find_emplace {K V : Type} [DecidableEq K] (m : List (K × V)) (k k' : K) (v : V) :
    Map.find (Map.emplace m k v).1 k' =
      match Map.find m k' with
      | some x => some x
      | none => if k = k' then some v else none := by
  unfold Map.emplace Map.contains
  cases hk : Map.find m k with
  | none => simpa using Map.find_append m k k' v
  | some w =>
    simp only [Option.isSome_some, if_true]
    cases hk' : Map.find m k' with
    | some x => rfl
    | none =>
      have hne : k ≠ k' := by
        intro e
        rw [e, hk'] at hk
        cases hk
      simp [hne]

theorem find_emplaceAll {V : Type} (entries table : List (String × V)) (k : String) :
    Map.find (emplaceAll table entries) k =
      match Map.find table k with
      | some x => some x
      | none => Map.find entries k := by
  induction entries generalizing table with
  | nil =>
    cases h : Map.find table k with
    | none => simp [emplaceAll, h, Map.find]
    | some x => simp [emplaceAll, h]
  | cons e rest ih =>
    have hstep := ih (Map.emplace table e.1 e.2).1
    simp only [emplaceAll, List.foldl_cons] at hstep ⊢
    rw [hstep, Map.find_emplace]
    obtain ⟨name, value⟩ := e
    cases h : Map.find table k with
    | some x => rfl
    | none =>
      by_cases hname : name = k
      · simp [hname, Map.find]
      · simp [hname, Map.find]

theorem Map.find_map_value {K V W : Type} [DecidableEq K] (m : List (K × V)) (f : V → W)
    (k : K) : Map.find (m.map (fun e => (e.1, f e.2))) k = (Map.find m k).map f := by
  induction m with
  | nil => rfl
  | cons p rest ih =>
    obtain ⟨a, b⟩ := p
    by_cases h : a = k
    · simp [Map.find, h]
    · simp [Map.find, h, ih]

theorem hidden_names_not_visible :
    ∀ e ∈ hiddenConditionFactories, Map.find coreConditionFactories e.1 = none := by
  decide

theorem hidden_names_distinct : Map.NodupKeys hiddenConditionFactories := by
  unfold Map.NodupKeys
  decide

/-- C25, as stated, fails. Before `InitFactories` a plug-in registers the
legacy name `IsEquippedRight` with the factory `11` and is answered `OK`;
after `InitFactories` the name builds the object of that factory, not the
legacy-mapped `IsEquippedCondition(false)` it builds without the
registration. -/
theorem CreateCondition_legacy_name_shadowed :
    (AddCustomCondition (OpenAnimationReplacer.init false)
      "PluginA" 1 "IsEquippedRight" 11).1 = APIResult.OK ∧
    CreateCondition (InitFactories (AddCustomCondition (OpenAnimationReplacer.init false)
      "PluginA" 1 "IsEquippedRight" 11).2) "IsEquippedRight" = some (ICondition.custom 11) ∧
    CreateCondition (InitFactories (OpenAnimationReplacer.init false)) "IsEquippedRight"
      = some (ICondition.builtin "IsEquippedCondition" ["false"]) := by
  refine ⟨?_, ?_, ?_⟩ <;> decide

/-- C25, amended. Take the new singleton after any run of `AddCustomCondition`
calls and then `InitFactories`. For each hidden legacy name, `CreateCondition`
returns the built-in legacy-mapped condition when no custom condition of that
name was registered; when one was registered, the visible table holds its
factory under that name and `CreateCondition` returns the object of the custom
factory. -/
theorem CreateCondition_legacy_names (bRecursiveLock : Bool)
    (calls : List (String × Nat × String × Ptr)) (e : String × Factory)
    (hLegacy : e ∈ hiddenConditionFactories) :
    (IsCustomCondition (addCustomConditions (OpenAnimationReplacer.init bRecursiveLock) calls)
        e.1 = false →
      CreateCondition (InitFactories
        (addCustomConditions (OpenAnimationReplacer.init bRecursiveLock) calls)) e.1
        = some e.2.call) ∧
    (∀ customFactory,
      Map.find (addCustomConditions (OpenAnimationReplacer.init bRecursiveLock)
        calls)._customConditionFactories e.1 = some customFactory →
      CreateCondition (InitFactories
        (addCustomConditions (OpenAnimationReplacer.init bRecursiveLock) calls)) e.1
        = some (ICondition.custom customFactory)) := by
  obtain ⟨hv, hh, hi⟩ :=
    addCustomConditions_tables calls (OpenAnimationReplacer.init bRecursiveLock)
  generalize addCustomConditions (OpenAnimationReplacer.init bRecursiveLock) calls = s
    at hv hh hi ⊢
  have hv' : s._conditionFactories = [] := hv
  have hh' : s._hiddenConditionFactories = [] := hh
  have hi' : s._bFactoriesInitialized = false := hi
  have hCore : Map.find coreConditionFactories e.1 = none :=
    hidden_names_not_visible e hLegacy
  have hHidden : Map.find hiddenConditionFactories e.1 = some e.2 :=
    Map.find_of_mem _ _ _ hidden_names_distinct hLegacy
  have hVisible : Map.find (InitFactories s)._conditionFactories e.1
      = (Map.find s._customConditionFactories e.1).map Factory.wrap := by
    simp only [InitFactories, hi', hv', Bool.false_eq_true, if_false]
    rw [find_emplaceAll, find_emplaceAll, hCore, Map.find_map_value]
    rfl
  have hHiddenTable : Map.find (InitFactories s)._hiddenConditionFactories e.1 = some e.2 := by
    simp only [InitFactories, hi', hh', Bool.false_eq_true, if_false]
    rw [find_emplaceAll, hHidden]
    rfl
  refine ⟨?_, ?_⟩
  · intro hNot
    have hNone : Map.find s._customConditionFactories e.1 = none := by
      cases hf : Map.find s._customConditionFactories e.1 with
      | none => rfl
      | some f => simp [IsCustomCondition, Map.contains, hf] at hNot
    unfold CreateCondition
    rw [hVisible, hNone, hHiddenTable]
    rfl
  · intro customFactory hSome
    unfold CreateCondition
    rw [hVisible, hSome]
    rfl

/-- Instance of amended C25: with the custom condition `MyCondition`
registered, the legacy name `IsEquippedLeft` builds its legacy-mapped
condition. -/
theorem CreateCondition_legacy_names_witness :
    CreateCondition (InitFactories (addCustomConditions (OpenAnimationReplacer.init false)
      [("PluginA", 1, "MyCondition", 11)])) "IsEquippedLeft"
      = some (Factory.call (Factory.make "IsEquippedCondition" ["true"])) :=
  (CreateCondition_legacy_names false [("PluginA", 1, "MyCondition", 11)]
    ("IsEquippedLeft", Factory.make "IsEquippedCondition" ["true"]) (by decide)).1 (by decide)

/-! ## Name index of the replacer mods -/

theorem le_foldl_max (l : List Nat) (a : Nat) :
    a ≤ l.foldl max a ∧ ∀ k ∈ l, k ≤ l.foldl max a := by
  induction l generalizing a with
  | nil => simp
  | cons x rest ih =>
    obtain ⟨h1, h2⟩ := ih (max a x)
    simp only [List.foldl_cons]
    refine ⟨le_trans (le_max_left a x) h1, ?_⟩
    intro k hk
    rcases List.mem_cons.mp hk with rfl | hk
    · exact le_trans (le_max_right a k) h1
    · exact h2 k hk

theorem freshModPtr_fresh (s : OpenAnimationReplacer) :
    Map.find s.modHeap (freshModPtr s) = none := by
  rw [Map.find_eq_none_iff]
  intro hmem
  have hle := (le_foldl_max (s.modHeap.map Prod.fst) 0).2 _ hmem
  unfold freshModPtr at hle
  omega

theorem addNewReplacerMod_eq (s : OpenAnimationReplacer) (a_path : String)
    (newMod : ReplacerMod)
    (hPath : Map.find s._replacerMods a_path = none)
    (hName : Map.find s._replacerModNameMap newMod.name = none) :
    addNewReplacerMod s a_path newMod =
      { s with
        modHeap := s.modHeap ++ [(freshModPtr s, newMod)],
        _replacerMods := s._replacerMods ++ [(a_path, freshModPtr s)],
        _replacerModNameMap := s._replacerModNameMap ++ [(newMod.name, freshModPtr s)] } := by
  have hFresh := freshModPtr_fresh s
  have hcp : Map.contains s._replacerMods a_path = false := by simp [Map.contains, hPath]
  have hcn : Map.contains s._replacerModNameMap newMod.name = false := by
    simp [Map.contains, hName]
  simp [addNewReplacerMod, AddReplacerMod, modName, Map.find_append, hFresh, Map.emplace, hcp,
    hcn]

theorem NameIndexConsistent_init (bRecursiveLock : Bool) :
    NameIndexConsistent (OpenAnimationReplacer.init bRecursiveLock) where
  pathsDistinct := by simp [Map.NodupKeys, OpenAnimationReplacer.init]
  inHeap := by
    intro path p h
    simp [OpenAnimationReplacer.init] at h
  byName := by
    intro path p h
    simp [OpenAnimationReplacer.init] at h

theorem NameIndexConsistent_add (s : OpenAnimationReplacer) (a_path : String)
    (newMod : ReplacerMod) (hInv : NameIndexConsistent s)
    (hPath : Map.find s._replacerMods a_path = none)
    (hName : Map.find s._replacerModNameMap newMod.name = none) :
    NameIndexConsistent (addNewReplacerMod s a_path newMod) := by
  have hFresh := freshModPtr_fresh s
  rw [addNewReplacerMod_eq s a_path newMod hPath hName]
  refine ⟨?_, ?_, ?_⟩
  · exact Map.nodupKeys_append_new _ _ _ hInv.pathsDistinct hPath
  · intro path p hmem
    simp only [List.mem_append, List.mem_singleton, Prod.mk.injEq] at hmem
    rcases hmem with hOld | ⟨_, hp⟩
    · obtain ⟨m, hm⟩ := hInv.inHeap path p hOld
      exact ⟨m, by simp [Map.find_append, hm]⟩
    · subst hp
      exact ⟨newMod, by simp [Map.find_append, hFresh]⟩
  · intro path p hmem
    simp only [List.mem_append, List.mem_singleton, Prod.mk.injEq] at hmem
    rcases hmem with hOld | ⟨_, hp⟩
    · obtain ⟨m, hm⟩ := hInv.inHeap path p hOld
      have hOldName := hInv.byName path p hOld
      simp only [modName, hm] at hOldName
      simp [modName, Map.find_append, hm, hOldName]
    · subst hp
      simp [modName, Map.find_append, hFresh, hName]

theorem renameReplacerMod_eq (s : OpenAnimationReplacer) (a_replacerMod : Ptr)
    (a_name : String) (m : ReplacerMod)
    (hMod : Map.find s.modHeap a_replacerMod = some m)
    (hOld : Map.find s._replacerModNameMap m.name = some a_replacerMod)
    (hName : Map.find s._replacerModNameMap a_name = none) :
    renameReplacerMod s a_replacerMod a_name = some
      { s with
        modHeap := Map.assign s.modHeap a_replacerMod { m with name := a_name },
        _replacerModNameMap :=
          Map.erase s._replacerModNameMap m.name ++ [(a_name, a_replacerMod)] } := by
  have hne : a_name ≠ m.name := by
    intro e
    rw [e, hOld] at hName
    cases hName
  have hGone : Map.find (Map.erase s._replacerModNameMap m.name) a_name = none := by
    rw [Map.find_erase_ne _ _ _ hne]
    exact hName
  have hc : Map.contains (Map.erase s._replacerModNameMap m.name) a_name = false := by
    simp [Map.contains, hGone]
  have hNew : Map.find (Map.assign s.modHeap a_replacerMod { m with name := a_name })
      a_replacerMod = some { m with name := a_name } :=
    Map.find_assign_self _ _ _ _ hMod
  simp [renameReplacerMod, hMod, OnReplacerModNameChanged, hOld, modName, hNew, Map.emplace, hc]

theorem NameIndexConsistent_rename (s : OpenAnimationReplacer) (a_replacerMod : Ptr)
    (a_name : String) (hInv : NameIndexConsistent s)
    (hRegistered : a_replacerMod ∈ s._replacerMods.map Prod.snd)
    (hName : Map.find s._replacerModNameMap a_name = none) :
    ∃ s1, renameReplacerMod s a_replacerMod a_name = some s1 ∧ NameIndexConsistent s1 := by
  obtain ⟨⟨regPath, regPtr⟩, hReg, hEq⟩ := List.mem_map.mp hRegistered
  simp only at hEq
  subst hEq
  obtain ⟨m, hMod⟩ := hInv.inHeap regPath regPtr hReg
  have hOld : Map.find s._replacerModNameMap m.name = some regPtr := by
    have h := hInv.byName regPath regPtr hReg
    simpa [modName, hMod] using h
  have hne : a_name ≠ m.name := by
    intro e
    rw [e, hOld] at hName
    cases hName
  have hGone : Map.find (Map.erase s._replacerModNameMap m.name) a_name = none := by
    rw [Map.find_erase_ne _ _ _ hne]
    exact hName
  refine ⟨_, renameReplacerMod_eq s regPtr a_name m hMod hOld hName, ?_, ?_, ?_⟩
  · exact hInv.pathsDistinct
  · intro path p hmem
    by_cases hp : p = regPtr
    · subst hp
      exact ⟨{ m with name := a_name }, Map.find_assign_self _ _ _ _ hMod⟩
    · obtain ⟨m', hm'⟩ := hInv.inHeap path p hmem
      exact ⟨m', by
        show Map.find (Map.assign s.modHeap regPtr { m with name := a_name }) p = some m'
        rw [Map.find_assign_ne _ _ _ _ hp]
        exact hm'⟩
  · intro path p hmem
    by_cases hp : p = regPtr
    · subst hp
      have hNew : Map.find (Map.assign s.modHeap p { m with name := a_name }) p
          = some { m with name := a_name } := Map.find_assign_self _ _ _ _ hMod
      simp [modName, hNew, Map.find_append, hGone]
    · obtain ⟨m', hm'⟩ := hInv.inHeap path p hmem
      have hKeep : Map.find (Map.assign s.modHeap regPtr { m with name := a_name }) p
          = some m' := by
        rw [Map.find_assign_ne _ _ _ _ hp]
        exact hm'
      have hByName : Map.find s._replacerModNameMap m'.name = some p := by
        have h := hInv.byName path p hmem
        simpa [modName, hm'] using h
      have hOther : m'.name ≠ m.name := by
        intro e
        rw [e, hOld] at hByName
        exact hp (Option.some.inj hByName).symm
      have hStill : Map.find (Map.erase s._replacerModNameMap m.name) m'.name = some p := by
        rw [Map.find_erase_ne _ _ _ hOther]
        exact hByName
      simp [modName, hKeep, Map.find_append, hStill]

theorem NameIndexConsistent_run (ops : List RegistryOp) (s : OpenAnimationReplacer)
    (hInv : NameIndexConsistent s)
    (hPaths : distinctPaths s ops = true) (hNames : distinctNames s ops = true) :
    ∃ s1, runRegistryOps s ops = some s1 ∧ NameIndexConsistent s1 := by
  induction ops generalizing s with
  | nil => exact ⟨s, rfl, hInv⟩
  | cons op rest ih =>
    cases op with
    | add a_path newMod =>
      simp only [distinctPaths, distinctNames, RegistryOp.run, Bool.and_eq_true,
        Bool.not_eq_true'] at hPaths hNames
      have hPath : Map.find s._replacerMods a_path = none := by
        cases hf : Map.find s._replacerMods a_path with
        | none => rfl
        | some v => simp [Map.contains, hf] at hPaths
      have hName : Map.find s._replacerModNameMap newMod.name = none := by
        cases hf : Map.find s._replacerModNameMap newMod.name with
        | none => rfl
        | some v => simp [Map.contains, hf] at hNames
      obtain ⟨s1, hRun, hInv1⟩ := ih (addNewReplacerMod s a_path newMod)
        (NameIndexConsistent_add s a_path newMod hInv hPath hName) hPaths.2 hNames.2
      exact ⟨s1, by simpa [runRegistryOps, RegistryOp.run] using hRun, hInv1⟩
    | rename a_replacerMod a_name =>
      simp only [distinctPaths, distinctNames, RegistryOp.run, Bool.and_eq_true,
        Bool.not_eq_true', decide_eq_true_eq, Bool.true_and] at hPaths hNames
      have hName : Map.find s._replacerModNameMap a_name = none := by
        cases hf : Map.find s._replacerModNameMap a_name with
        | none => rfl
        | some v => simp [Map.contains, hf] at hNames
      obtain ⟨s0, hStep, hInv0⟩ :=
        NameIndexConsistent_rename s a_replacerMod a_name hInv hNames.1.1 hName
      rw [hStep] at hPaths hNames
      obtain ⟨s1, hRun, hInv1⟩ := ih s0 hInv0 hPaths hNames.2
      exact ⟨s1, by simpa [runRegistryOps, RegistryOp.run, hStep] using hRun, hInv1⟩

/-- C26, as stated, fails. Two mods are added under the distinct paths `A`
and `B`, both with the name `Mod`. The second mod, at the address `2`, is
registered under its path and its name is `Mod`, but `GetReplacerModByName` for
that name returns the first mod, at the address `1`. -/
theorem name_index_same_name :
    distinctPaths (OpenAnimationReplacer.init false)
      [RegistryOp.add "A" (sampleMod "A" "Mod"), RegistryOp.add "B" (sampleMod "B" "Mod")]
      = true ∧
    (runRegistryOps (OpenAnimationReplacer.init false)
      [RegistryOp.add "A" (sampleMod "A" "Mod"), RegistryOp.add "B" (sampleMod "B" "Mod")]).map
      (fun s => (s._replacerMods, modName s 2, GetReplacerModByName s (modName s 2)))
      = some ([("A", 1), ("B", 2)], "Mod", 1) := by
  refine ⟨?_, ?_⟩ <;> decide

/-- C26, amended. Start from the new singleton and run any sequence of
`AddReplacerMod` calls with pairwise distinct paths and of name changes reported
through `OnReplacerModNameChanged`, in which the names stay pairwise distinct as
well: a mod is added with, or renamed to, a name that is not a key of the name
index, and only registered mods are renamed. Then every call returns, and every
registered mod is found by its path and by its current name. -/
theorem name_index_consistent (bRecursiveLock : Bool) (ops : List RegistryOp)
    (hPaths : distinctPaths (OpenAnimationReplacer.init bRecursiveLock) ops = true)
    (hNames : distinctNames (OpenAnimationReplacer.init bRecursiveLock) ops = true) :
    ∃ s, runRegistryOps (OpenAnimationReplacer.init bRecursiveLock) ops = some s ∧
      ∀ path p, (path, p) ∈ s._replacerMods →
        GetReplacerMod s path = p ∧ GetReplacerModByName s (modName s p) = p := by
  obtain ⟨s, hRun, hInv⟩ := NameIndexConsistent_run ops
    (OpenAnimationReplacer.init bRecursiveLock) (NameIndexConsistent_init bRecursiveLock)
    hPaths hNames
  refine ⟨s, hRun, ?_⟩
  intro path p hmem
  have hByPath := Map.find_of_mem _ _ _ hInv.pathsDistinct hmem
  have hByName := hInv.byName path p hmem
  exact ⟨by simp [GetReplacerMod, hByPath], by simp [GetReplacerModByName, hByName]⟩

/-- Instance of amended C26: two mods with distinct paths and names are added
and the first is renamed to a new name. -/
theorem name_index_consistent_witness :
    ∃ s, runRegistryOps (OpenAnimationReplacer.init false)
        [RegistryOp.add "A" (sampleMod "A" "One"), RegistryOp.add "B" (sampleMod "B" "Two"),
          RegistryOp.rename 1 "Uno"] = some s ∧
      ∀ path p, (path, p) ∈ s._replacerMods →
        GetReplacerMod s path = p ∧ GetReplacerModByName s (modName s p) = p :=
  name_index_consistent false
    [RegistryOp.add "A" (sampleMod "A" "One"), RegistryOp.add "B" (sampleMod "B" "Two"),
      RegistryOp.rename 1 "Uno"] (by decide) (by decide)

end OAR
